import Mathlib

/-!
Verification model of the rg3d particle-system module
(`src/scene/particle_system.rs`).

Embedding conventions:
* `f32` scalar state is modelled by exact rationals (`ℚ`); decimal float
  literals from the source are taken at their decimal value.
* Random draws (`NumericRange::random`, `rand::thread_rng().gen_range`,
  `theta.cos()` and friends applied to random angles) are modelled as oracle
  inputs: every spawn consumes one `SpawnSeed` holding the values the RNG and
  the trigonometric evaluations would have produced.
* `u32` counters are modelled by `ℕ`.  The one place where unsigned wrap-around
  is essential to the claims — the `max_particles - particle_count` subtraction
  in `BaseEmitter::tick` — is modelled with an explicit wrapping subtraction
  `u32Sub`; the `as u32` float-to-int cast is modelled with Rust's saturating
  semantics (`f32ToU32`).
* Rust `Vec` is modelled by `List`; `Vec::push`/`Vec::pop` on the free list is
  a stack, modelled with the list head as the stack top.
* Operations that panic in the source (`static_dispatch!` on
  `Emitter::Unknown`, out-of-bounds indexing) are modelled by `Option`
  results, `none` standing for the panic.
-/

/-- 3-component vector, mirroring `Vec3` (f32 components modelled as `ℚ`). -/
structure Vec3 where
  x : ℚ
  y : ℚ
  z : ℚ
deriving DecidableEq

def Vec3.zero : Vec3 := ⟨0, 0, 0⟩

def Vec3.add (a b : Vec3) : Vec3 := ⟨a.x + b.x, a.y + b.y, a.z + b.z⟩

/-- Mirrors `Vec3::scale`. -/
def Vec3.scale (a : Vec3) (k : ℚ) : Vec3 := ⟨a.x * k, a.y * k, a.z * k⟩

/-- Mirrors `Vec3::sqr_distance`: squared euclidean distance. -/
def Vec3.sqrDistance (a b : Vec3) : ℚ :=
  (a.x - b.x) ^ 2 + (a.y - b.y) ^ 2 + (a.z - b.z) ^ 2

/-- 2-component vector, mirroring `Vec2`. -/
structure Vec2 where
  x : ℚ
  y : ℚ
deriving DecidableEq

def Vec2.zero : Vec2 := ⟨0, 0⟩

/-- RGBA color, mirroring `Color` (four u8 channels). -/
structure Color where
  r : ℕ
  g : ℕ
  b : ℕ
  a : ℕ
deriving DecidableEq

def Color.WHITE : Color := ⟨255, 255, 255, 255⟩

/-- Mirrors `NumericRange<f32>`: a closed interval the RNG samples from.
The samples themselves are supplied by `SpawnSeed` oracles. -/
structure NumericRange where
  min : ℚ
  max : ℚ
deriving DecidableEq

/-- Mirrors `Particle`.  `sqr_distance_to_camera` is the transient
`Cell<f32>` recomputed by every draw-data pass. -/
structure Particle where
  position : Vec3
  velocity : Vec3
  size : ℚ
  alive : Bool
  size_modifier : ℚ
  lifetime : ℚ
  initial_lifetime : ℚ
  rotation_speed : ℚ
  rotation : ℚ
  color : Color
  emitter_index : ℕ
  sqr_distance_to_camera : ℚ
deriving DecidableEq

/-- Mirrors `impl Default for Particle`. -/
instance : Inhabited Particle :=
  ⟨{ position := Vec3.zero, velocity := Vec3.zero, size := 1, alive := true,
     size_modifier := 0, lifetime := 0, initial_lifetime := 2,
     rotation_speed := 0, rotation := 0, color := Color.WHITE,
     emitter_index := 0, sqr_distance_to_camera := 0 }⟩

/-- Mirrors `ParticleLimit`. -/
inductive ParticleLimit where
  | Unlimited : ParticleLimit
  | Strict : ℕ → ParticleLimit
deriving DecidableEq

/-- Mirrors `BaseEmitter`.  `alive_particles` is the `Cell<u32>` live counter;
`spawned_particles` the monotonic `u64` total (both modelled as `ℕ`). -/
structure BaseEmitter where
  position : Vec3
  particle_spawn_rate : ℕ
  max_particles : ParticleLimit
  lifetime : NumericRange
  size : NumericRange
  size_modifier : NumericRange
  x_velocity : NumericRange
  y_velocity : NumericRange
  z_velocity : NumericRange
  rotation_speed : NumericRange
  rotation : NumericRange
  alive_particles : ℕ
  time : ℚ
  particles_to_spawn : ℕ
  resurrect_particles : Bool
  spawned_particles : ℕ
deriving DecidableEq

/-- The `f32` value of `std::f32::consts::PI` (exact rational of the bits). -/
def f32Pi : ℚ := 13176795 / 4194304

/-- Mirrors `impl Default for BaseEmitter`. -/
instance : Inhabited BaseEmitter :=
  ⟨{ position := Vec3.zero, particle_spawn_rate := 0,
     max_particles := ParticleLimit.Unlimited,
     lifetime := ⟨5, 10⟩, size := ⟨1/8, 1/4⟩,
     size_modifier := ⟨5/10000, 10/10000⟩,
     x_velocity := ⟨-1/1000, 1/1000⟩, y_velocity := ⟨-1/1000, 1/1000⟩,
     z_velocity := ⟨-1/1000, 1/1000⟩, rotation_speed := ⟨-2/100, 2/100⟩,
     rotation := ⟨-f32Pi, f32Pi⟩,
     alive_particles := 0, time := 0, particles_to_spawn := 0,
     resurrect_particles := true, spawned_particles := 0 }⟩

/-- Largest `u32` value. -/
def u32Max : ℕ := 4294967295

/-- Rust's saturating `as u32` cast applied to a (modelled) `f32` value:
negative values clamp to 0, values past `u32::MAX` clamp to `u32::MAX`. -/
def f32ToU32 (q : ℚ) : ℕ := min (Int.toNat ⌊q⌋) u32Max

/-- Wrapping `u32` subtraction (release-mode semantics of `a - b`). -/
def u32Sub (a b : ℕ) : ℕ := (a + 4294967296 - b) % 4294967296

/-- Wrapping `u32` addition (release-mode semantics of `a + b`). -/
def u32Add (a b : ℕ) : ℕ := (a + b) % 4294967296

/-- Mirrors `BaseEmitter::tick(dt)`: spawn accounting.  Source lines 808-825.
Note the source's reduction branch computes `max_particles - particle_count`
(not `max_particles - alive_particles`); this is reproduced verbatim, with
both u32 operations of the branch — the guard's
`alive_particles + particle_count` addition and the subtraction — modelled
as wrapping. -/
def BaseEmitter.tick (em : BaseEmitter) (dt : ℚ) : BaseEmitter :=
  let time := em.time + dt
  let time_amount_per_particle : ℚ := 1 / (em.particle_spawn_rate : ℚ)
  let particle_count := f32ToU32 (time / time_amount_per_particle)
  let time := time - time_amount_per_particle * (particle_count : ℚ)
  match em.max_particles with
  | ParticleLimit.Strict maxp =>
    let alive := em.alive_particles
    let particle_count :=
      if alive < maxp ∧ u32Add alive particle_count > maxp then
        u32Sub maxp particle_count
      else particle_count
    if em.resurrect_particles = false ∧ em.spawned_particles > maxp then
      { em with time := time, particles_to_spawn := 0 }
    else
      { em with time := time, particles_to_spawn := particle_count,
                spawned_particles := em.spawned_particles + particle_count }
  | ParticleLimit.Unlimited =>
    { em with time := time, particles_to_spawn := particle_count,
              spawned_particles := em.spawned_particles + particle_count }

/-- The pub-visible fields of `Particle` (everything a custom emitter outside
the module can write). -/
structure PubFields where
  position : Vec3
  velocity : Vec3
  size : ℚ
  size_modifier : ℚ
  initial_lifetime : ℚ
  rotation : ℚ
  rotation_speed : ℚ
  color : Color
deriving DecidableEq

/-- Oracle for one spawn: the values the RNG draws would have produced.
`shapeSampleA..E` stand for the shape-specific draws (for `BoxEmitter` the
three `gen_range(-half, half)` offsets; for `SphereEmitter` the radius draw
and the evaluated `cos theta`, `sin theta`, `cos phi`, `sin phi`);
`customFields` is the arbitrary state an external custom emitter writes. -/
structure SpawnSeed where
  lifetimeSample : ℚ
  sizeSample : ℚ
  sizeModifierSample : ℚ
  xVelocitySample : ℚ
  yVelocitySample : ℚ
  zVelocitySample : ℚ
  rotationSample : ℚ
  rotationSpeedSample : ℚ
  shapeSampleA : ℚ
  shapeSampleB : ℚ
  shapeSampleC : ℚ
  shapeSampleD : ℚ
  shapeSampleE : ℚ
  customFields : PubFields
deriving DecidableEq

/-- Mirrors `BaseEmitter::emit(particle)`: base field randomization
(source lines 829-842); each `random()` call reads from the seed. -/
def BaseEmitter.emit (_em : BaseEmitter) (seed : SpawnSeed) (p : Particle) :
    Particle :=
  { p with lifetime := 0, initial_lifetime := seed.lifetimeSample,
           color := Color.WHITE, size := seed.sizeSample,
           size_modifier := seed.sizeModifierSample,
           velocity := ⟨seed.xVelocitySample, seed.yVelocitySample,
                        seed.zVelocitySample⟩,
           rotation := seed.rotationSample,
           rotation_speed := seed.rotationSpeedSample }

/-- Mirrors `BoxEmitter`. -/
structure BoxEmitter where
  emitter : BaseEmitter
  half_width : ℚ
  half_height : ℚ
  half_depth : ℚ
deriving DecidableEq

/-- Mirrors `impl Default for BoxEmitter`. -/
instance : Inhabited BoxEmitter := ⟨⟨default, 1/2, 1/2, 1/2⟩⟩

/-- Mirrors `impl Emit for BoxEmitter` (source lines 255-265): base emit, then
position = emitter local position + per-axis uniform offsets. -/
def BoxEmitter.emit (be : BoxEmitter) (seed : SpawnSeed) (p : Particle) :
    Particle :=
  let p := be.emitter.emit seed p
  { p with position := ⟨be.emitter.position.x + seed.shapeSampleA,
                        be.emitter.position.y + seed.shapeSampleB,
                        be.emitter.position.z + seed.shapeSampleC⟩ }

/-- Mirrors `SphereEmitter`. -/
structure SphereEmitter where
  emitter : BaseEmitter
  radius : ℚ
deriving DecidableEq

/-- Mirrors `impl Default for SphereEmitter`. -/
instance : Inhabited SphereEmitter := ⟨⟨default, 1/2⟩⟩

/-- Mirrors `impl Emit for SphereEmitter` (source lines 376-393): base emit,
then position from radius and spherical angles around the origin —
`shapeSampleA` = radius draw, `shapeSampleB` = `cos theta`,
`shapeSampleC` = `sin theta`, `shapeSampleD` = `cos phi`,
`shapeSampleE` = `sin phi`.  The emitter's local `position` is not used. -/
def SphereEmitter.emit (se : SphereEmitter) (seed : SpawnSeed) (p : Particle) :
    Particle :=
  let p := se.emitter.emit seed p
  { p with position := ⟨seed.shapeSampleA * seed.shapeSampleC * seed.shapeSampleD,
                        seed.shapeSampleA * seed.shapeSampleC * seed.shapeSampleE,
                        seed.shapeSampleA * seed.shapeSampleB⟩ }

/-- Behaviour of an external custom emitter's `emit`: it may write any
pub-visible particle fields (it cannot touch `alive`, `lifetime`,
`emitter_index`, which are private to the module). -/
def customEmit (seed : SpawnSeed) (p : Particle) : Particle :=
  { p with position := seed.customFields.position,
           velocity := seed.customFields.velocity,
           size := seed.customFields.size,
           size_modifier := seed.customFields.size_modifier,
           initial_lifetime := seed.customFields.initial_lifetime,
           rotation := seed.customFields.rotation,
           rotation_speed := seed.customFields.rotation_speed,
           color := seed.customFields.color }

/-- Mirrors `enum Emitter`.  A `Custom` emitter carries its `BaseEmitter`
(exposed through `Deref`) and its non-negative kind id. -/
inductive Emitter where
  | Unknown : Emitter
  | Box : BoxEmitter → Emitter
  | Sphere : SphereEmitter → Emitter
  | Custom : BaseEmitter → ℤ → Emitter
deriving DecidableEq

/-- `Deref<Target = BaseEmitter>` for `Emitter`: `Unknown` panics
(`static_dispatch!`), modelled as `none`. -/
def Emitter.base : Emitter → Option BaseEmitter
  | Emitter.Unknown => none
  | Emitter.Box be => some be.emitter
  | Emitter.Sphere se => some se.emitter
  | Emitter.Custom b _ => some b

/-- Write back the dereferenced `BaseEmitter` (models mutation through
`DerefMut` / the `alive_particles` cell).  `Unknown` is untouched: every code
path that would reach it has already panicked (`Emitter.base = none`). -/
def Emitter.withBase : Emitter → BaseEmitter → Emitter
  | Emitter.Unknown, _ => Emitter.Unknown
  | Emitter.Box be, b => Emitter.Box { be with emitter := b }
  | Emitter.Sphere se, b => Emitter.Sphere { se with emitter := b }
  | Emitter.Custom _ k, b => Emitter.Custom b k

/-- `emitter.tick(dt)` through `DerefMut`; panic on `Unknown`. -/
def Emitter.tickE (e : Emitter) (dt : ℚ) : Option Emitter :=
  (e.base).map (fun b => e.withBase (b.tick dt))

/-- The `alive_particles` counter as read through `Deref` (0 for `Unknown`,
which has no base; counter reads on `Unknown` never happen in a run that did
not already panic). -/
def Emitter.aliveCount : Emitter → ℕ
  | Emitter.Unknown => 0
  | Emitter.Box be => be.emitter.alive_particles
  | Emitter.Sphere se => se.emitter.alive_particles
  | Emitter.Custom b _ => b.alive_particles

/-- Mirrors `impl Emit for Emitter` (`static_dispatch!`): `Unknown` panics. -/
def Emitter.emitParticle : Emitter → SpawnSeed → Particle → Option Particle
  | Emitter.Unknown, _, _ => none
  | Emitter.Box be, s, p => some (be.emit s p)
  | Emitter.Sphere se, s, p => some (se.emit s p)
  | Emitter.Custom _ _, s, p => some (customEmit s p)

def noCallbackMsg : String := "no callback specified"

def factoryErrMsg : String := "Failed get custom emitter factory!"

/-- Mirrors `CustomEmitterFactory`: the optional registered callback.  A
spawned custom emitter is modelled by its `BaseEmitter` and kind id. -/
structure CustomEmitterFactory where
  callback : Option (ℤ → Except String (BaseEmitter × ℤ))

/-- Mirrors `CustomEmitterFactory::spawn` (source lines 450-455). -/
def CustomEmitterFactory.spawn (f : CustomEmitterFactory) (kind : ℤ) :
    Except String (BaseEmitter × ℤ) :=
  match f.callback with
  | some cb => cb kind
  | none => Except.error noCallbackMsg

/-- Mirrors `Emitter::new(id)` (source lines 496-507).  The process-wide
factory singleton is passed explicitly; acquiring its lock is modelled as
always succeeding (the `Err(_)` arm of `CustomEmitterFactory::get`
is unreachable in a single-threaded run). -/
def Emitter.new (f : CustomEmitterFactory) (id : ℤ) : Except String Emitter :=
  if id = -1 then Except.ok Emitter.Unknown
  else if id = -2 then Except.ok (Emitter.Box default)
  else if id = -3 then Except.ok (Emitter.Sphere default)
  else
    match f.spawn id with
    | Except.ok c => Except.ok (Emitter.Custom c.1 c.2)
    | Except.error e => Except.error e

/-- Modelled from the spec: the scene-graph `Base` node collaborator supplies
the owning node's `global_position()`, used only during draw-data
extraction (`scene::base::Base` is outside this module). -/
structure Base where
  global_position : Vec3

/-- Mirrors `ParticleSystem` (source lines 1069-1077).  The texture is an
opaque shared handle, irrelevant to behaviour; `color_over_lifetime` is the
optional gradient, modelled as its `get_color` evaluation function
(`ColorGradient` lives outside this module). -/
structure ParticleSystem where
  base : Base
  particles : List Particle
  free_particles : List ℕ
  emitters : List Emitter
  texture : Option Unit
  acceleration : Vec3
  color_over_lifetime : Option (ℚ → Color)

/-- Tick every emitter (`update` step 1); `none` models the
`Emitter::Unknown` panic. -/
def tickAll : List Emitter → ℚ → Option (List Emitter)
  | [], _ => some []
  | e :: rest, dt =>
    match e.tickE dt, tickAll rest dt with
    | some e2, some rest2 => some (e2 :: rest2)
    | _, _ => none

/-- Place a freshly emitted particle: pop a free slot if one exists, else
append (source lines 1131-1135).  The free list is a stack (head = top).
Indexing a popped slot out of bounds would panic (`none`). -/
def placeParticle (parts : List Particle) (free : List ℕ) (p : Particle) :
    Option (List Particle × List ℕ) :=
  match free with
  | i :: rest =>
    if i < parts.length then some (parts.set i p, rest) else none
  | [] => some (parts ++ [p], [])

/-- Increment the `alive_particles` cell of the emitter at index `j`
(no-op when out of bounds, which cannot happen on the call sites). -/
def incAliveAt : List Emitter → ℕ → List Emitter
  | [], _ => []
  | e :: rest, 0 =>
    (match e.base with
     | some b => e.withBase { b with alive_particles := b.alive_particles + 1 }
     | none => e) :: rest
  | e :: rest, Nat.succ j => e :: incAliveAt rest j

/-- Decrement the `alive_particles` cell of the emitter at index `j`.  The
source guards with `emitters.get(..)` so an out-of-bounds index is a no-op;
the counter itself is `u32` and every reachable decrement has counter ≥ 1
(proved below), so plain `ℕ` subtraction is faithful. -/
def decAliveAt : List Emitter → ℕ → List Emitter
  | [], _ => []
  | e :: rest, 0 =>
    (match e.base with
     | some b => e.withBase { b with alive_particles := b.alive_particles - 1 }
     | none => e) :: rest
  | e :: rest, Nat.succ j => e :: decAliveAt rest j

/-- The default-constructed particle stamped with its owning emitter index
(`update` step 2: `Particle::default()` then `particle.emitter_index = i`). -/
def spawnedTemplate (j : ℕ) : Particle :=
  { (default : Particle) with emitter_index := j }

/-- Spawn `k` particles for the emitter at index `j` (inner loop of `update`
step 2, source lines 1124-1136): per particle — default-construct, stamp the
emitter index, bump the alive counter, run the emitter's `emit`, place into a
free slot or append.  `sc` numbers the seeds consumed so far this update. -/
def spawnCount (j : ℕ) (seeds : ℕ → SpawnSeed) :
    ℕ → ℕ → List Emitter → List Particle → List ℕ →
    Option (List Emitter × List Particle × List ℕ × ℕ)
  | 0, sc, ems, parts, free => some (ems, parts, free, sc)
  | Nat.succ k, sc, ems, parts, free =>
    match (ems.getD j Emitter.Unknown).emitParticle (seeds sc)
        (spawnedTemplate j) with
    | none => none
    | some p =>
      match placeParticle parts free p with
      | none => none
      | some pf => spawnCount j seeds k (sc + 1) (incAliveAt ems j) pf.1 pf.2

/-- Outer loop of `update` step 2, over the enumerated emitter indices. -/
def spawnEmitters (seeds : ℕ → SpawnSeed) :
    List ℕ → ℕ → List Emitter → List Particle → List ℕ →
    Option (List Emitter × List Particle × List ℕ)
  | [], _, ems, parts, free => some (ems, parts, free)
  | j :: js, sc, ems, parts, free =>
    match (ems.getD j Emitter.Unknown).base with
    | none => none
    | some b =>
      match spawnCount j seeds b.particles_to_spawn sc ems parts free with
      | none => none
      | some out => spawnEmitters seeds js out.2.2.2 out.1 out.2.1 out.2.2.1

/-- Per-particle integration (the body of `update` step 4, source lines
1141-1168), as a pure particle transform: death, or motion / size / rotation /
color update.  The free-list and counter side effects live in
`integrateLoop`. -/
def stepParticle (dt : ℚ) (accOfs : Vec3) (grad : Option (ℚ → Color))
    (p : Particle) : Particle :=
  if p.alive then
    let lifetime := p.lifetime + dt
    if p.initial_lifetime ≤ lifetime then
      { p with alive := false, lifetime := p.initial_lifetime }
    else
      let velocity := p.velocity.add accOfs
      let position := p.position.add velocity
      let size0 := p.size + p.size_modifier * dt
      let size := if size0 < 0 then 0 else size0
      let rotation := p.rotation + p.rotation_speed * dt
      let color :=
        match grad with
        | some g => g (lifetime / p.initial_lifetime)
        | none => Color.WHITE
      { p with lifetime := lifetime, velocity := velocity,
               position := position, size := size, rotation := rotation,
               color := color }
  else p

/-- The integration loop of `update` step 4: walks the pool at absolute index
`i`, pushing dead slots onto the free list and decrementing the owning
emitter's alive counter. -/
def integrateLoop (dt : ℚ) (accOfs : Vec3) (grad : Option (ℚ → Color)) :
    List Particle → ℕ → List Emitter → List ℕ →
    List Particle × List Emitter × List ℕ
  | [], _, ems, free => ([], ems, free)
  | p :: rest, i, ems, free =>
    if p.alive = true ∧ p.initial_lifetime ≤ p.lifetime + dt then
      let out := integrateLoop dt accOfs grad rest (i + 1)
        (decAliveAt ems p.emitter_index) (i :: free)
      (stepParticle dt accOfs grad p :: out.1, out.2.1, out.2.2)
    else
      let out := integrateLoop dt accOfs grad rest (i + 1) ems free
      (stepParticle dt accOfs grad p :: out.1, out.2.1, out.2.2)

/-- Mirrors `ParticleSystem::update(dt)` (source lines 1118-1170); `seeds`
supplies the random draws of the spawns, in order. -/
def ParticleSystem.update (sys : ParticleSystem) (dt : ℚ)
    (seeds : ℕ → SpawnSeed) : Option ParticleSystem :=
  match tickAll sys.emitters dt with
  | none => none
  | some ems1 =>
    match spawnEmitters seeds (List.range ems1.length) 0 ems1
        sys.particles sys.free_particles with
    | none => none
    | some sp =>
      let accOfs := sys.acceleration.scale (dt * dt)
      let out := integrateLoop dt accOfs sys.color_over_lifetime sp.2.1 0
        sp.1 sp.2.2
      some { sys with particles := out.1, emitters := out.2.1,
                      free_particles := out.2.2 }

/-- A sequence of `update` calls, each with its own `dt` and seed oracle. -/
def runUpdates : List (ℚ × (ℕ → SpawnSeed)) → ParticleSystem →
    Option ParticleSystem
  | [], sys => some sys
  | step :: rest, sys =>
    match sys.update step.1 step.2 with
    | none => none
    | some sys2 => runUpdates rest sys2

/-- Mirrors `Vertex` (the OpenGL vertex layout). -/
structure Vertex where
  position : Vec3
  tex_coord : Vec2
  size : ℚ
  rotation : ℚ
  color : Color
deriving DecidableEq

instance : Inhabited Vertex :=
  ⟨{ position := Vec3.zero, tex_coord := Vec2.zero, size := 0,
     rotation := 0, color := Color.WHITE }⟩

/-- Mirrors `TriangleDefinition([u32; 3])`. -/
structure TriangleDefinition where
  a : ℕ
  b : ℕ
  c : ℕ
deriving DecidableEq

instance : Inhabited TriangleDefinition := ⟨⟨0, 0, 0⟩⟩

/-- Mirrors `DrawData`. -/
structure DrawData where
  vertices : List Vertex
  triangles : List TriangleDefinition
deriving DecidableEq

/-- First pass of `generate_draw_data` (source lines 1180-1189): collect the
pool index and squared camera distance of every live particle.  The source
stores the distance in the particle's `Cell` and sorts indices by the stored
values; carrying (index, distance) pairs is observationally identical because
each cell is written exactly once before the sort. -/
def collectAlive (sys : ParticleSystem) (cam : Vec3) : List (ℕ × ℚ) :=
  (List.enumFrom 0 sys.particles).filterMap (fun ip =>
    if ip.2.alive then
      some (ip.1, Vec3.sqrDistance cam (ip.2.position.add sys.base.global_position))
    else none)

/-- The comparator of the sort (source lines 1193-1205), as an order
relation: `a` precedes `b` when `a` is at least as far from the camera
(back-to-front). -/
def farther (a b : ℕ × ℚ) : Prop := b.2 ≤ a.2

instance : DecidableRel farther :=
  fun a b => inferInstanceAs (Decidable (b.2 ≤ a.2))

instance : IsTotal (ℕ × ℚ) farther := ⟨fun a b => le_total b.2 a.2⟩

instance : IsTrans (ℕ × ℚ) farther :=
  ⟨fun _ _ _ hab hbc => le_trans hbc hab⟩

/-- The collected live particles sorted back-to-front.  `Vec::sort_by` is a
stable sort; a stable sort is modelled by `List.insertionSort` (any two
stable sorts of the same comparator agree). -/
def sortedCollected (sys : ParticleSystem) (cam : Vec3) : List (ℕ × ℚ) :=
  List.insertionSort farther (collectAlive sys cam)

/-- The sorted pool indices (the `sorted_particles` output buffer). -/
def sortedIndices (sys : ParticleSystem) (cam : Vec3) : List ℕ :=
  (sortedCollected sys cam).map Prod.fst

/-- The four vertices of one particle quad (source lines 1212-1242): shared
position / size / rotation / color, texture coordinates
(0,0), (1,0), (1,1), (0,1). -/
def quadVertices (p : Particle) : List Vertex :=
  [⟨p.position, ⟨0, 0⟩, p.size, p.rotation, p.color⟩,
   ⟨p.position, ⟨1, 0⟩, p.size, p.rotation, p.color⟩,
   ⟨p.position, ⟨1, 1⟩, p.size, p.rotation, p.color⟩,
   ⟨p.position, ⟨0, 1⟩, p.size, p.rotation, p.color⟩]

/-- Emission loop of `generate_draw_data` (source lines 1209-1256): one quad
and two triangles per sorted particle, `i` enumerating the sorted list
(`base_index = i * 4`).  The looked-up pool index is always in bounds
(`unwrap` cannot fail); `getD` with the default particle models the lookup. -/
def emitQuads (parts : List Particle) :
    List ℕ → ℕ → List Vertex × List TriangleDefinition
  | [], _ => ([], [])
  | idx :: rest, i =>
    let p := parts.getD idx default
    let out := emitQuads parts rest (i + 1)
    (quadVertices p ++ out.1,
     ⟨4 * i, 4 * i + 1, 4 * i + 2⟩ :: ⟨4 * i, 4 * i + 2, 4 * i + 3⟩ :: out.2)

/-- Mirrors `ParticleSystem::generate_draw_data` (source lines 1174-1257):
collect live particles, sort back-to-front, rebuild the vertex and triangle
buffers from scratch. -/
def ParticleSystem.generate_draw_data (sys : ParticleSystem) (cam : Vec3) :
    DrawData :=
  let out := emitQuads sys.particles (sortedIndices sys cam) 0
  { vertices := out.1, triangles := out.2 }

/-- Live-and-owned-by-emitter-`j` predicate on particles. -/
def aliveWithIdx (j : ℕ) (p : Particle) : Bool :=
  p.alive && p.emitter_index == j

/-- The alive counter of the emitter at index `j` (0 out of bounds). -/
def emittersAliveAt (ems : List Emitter) (j : ℕ) : ℕ :=
  (ems.getD j Emitter.Unknown).aliveCount

/-- The `particles_to_spawn` of the emitter at index `j` (0 out of bounds or
`Unknown`). -/
def ptsAt (ems : List Emitter) (j : ℕ) : ℕ :=
  ((ems.getD j Emitter.Unknown).base).elim 0 (fun b => b.particles_to_spawn)

/-- Total `particles_to_spawn` over an emitter list. -/
def totalToSpawn (ems : List Emitter) : ℕ :=
  (ems.map (fun e => (e.base).elim 0 (fun b => b.particles_to_spawn))).sum

/-- Particle will die during an `update(dt)` integration pass. -/
def dieCond (dt : ℚ) (p : Particle) : Bool :=
  p.alive && decide (p.initial_lifetime ≤ p.lifetime + dt)

/-- Particle owned by emitter `j` that dies during `update(dt)`. -/
def dieIdx (dt : ℚ) (j : ℕ) (p : Particle) : Bool :=
  dieCond dt p && p.emitter_index == j

/-- The pool/free-list/counter consistency invariant of a particle system
state: every emitter's alive counter equals the number of live pool particles
stamped with its index, the free list holds no duplicates, and every free
index is an in-bounds dead slot. -/
def SysInv (parts : List Particle) (ems : List Emitter) (free : List ℕ) :
    Prop :=
  (∀ j, emittersAliveAt ems j = parts.countP (aliveWithIdx j)) ∧
  free.Nodup ∧
  ∀ i ∈ free, i < parts.length ∧ (parts.getD i default).alive = false

/-- A freshly built particle system (`ParticleSystemBuilder::build`): empty
pool, empty free list, all emitter counters zero. -/
def FreshSystem (sys : ParticleSystem) : Prop :=
  sys.particles = [] ∧ sys.free_particles = [] ∧
  ∀ e ∈ sys.emitters, e.aliveCount = 0

/-- A sequence of `tick` calls. -/
def tickSeq (em : BaseEmitter) (dts : List ℚ) : BaseEmitter :=
  dts.foldl (fun e dt => e.tick dt) em

/-- A seed whose lifetime draw is `lt` and whose other draws are zero. -/
def constSeed (lt : ℚ) : SpawnSeed :=
  { lifetimeSample := lt, sizeSample := 0, sizeModifierSample := 0,
    xVelocitySample := 0, yVelocitySample := 0, zVelocitySample := 0,
    rotationSample := 0, rotationSpeedSample := 0, shapeSampleA := 0,
    shapeSampleB := 0, shapeSampleC := 0, shapeSampleD := 0,
    shapeSampleE := 0,
    customFields := ⟨Vec3.zero, Vec3.zero, 0, 0, 0, 0, 0, Color.WHITE⟩ }

/-- Test fixture: emitter with spawn rate 1/s and a strict cap of 4. -/
def c1base : BaseEmitter :=
  { (default : BaseEmitter) with
    particle_spawn_rate := 1
    max_particles := ParticleLimit.Strict 4 }

/-- Test fixture: a particle system with the single capped box emitter. -/
def c1sys : ParticleSystem :=
  { base := ⟨Vec3.zero⟩, particles := [], free_particles := [],
    emitters := [Emitter.Box { (default : BoxEmitter) with emitter := c1base }],
    texture := none, acceleration := Vec3.zero, color_over_lifetime := none }

/-- Test fixture: two updates (dt = 3 then dt = 2), particles living 1000 s. -/
def c1steps : List (ℚ × (ℕ → SpawnSeed)) :=
  [(3, fun _ => constSeed 1000), (2, fun _ => constSeed 1000)]

/-- Test fixture: fresh emitter, spawn rate 1/s, strict cap 100. -/
def c2em : BaseEmitter :=
  { (default : BaseEmitter) with
    particle_spawn_rate := 1
    max_particles := ParticleLimit.Strict 100 }

/-- Test fixture: fresh one-shot emitter, spawn rate 1/s, strict cap 2. -/
def c3em : BaseEmitter :=
  { (default : BaseEmitter) with
    particle_spawn_rate := 1
    max_particles := ParticleLimit.Strict 2
    resurrect_particles := false }

/-- Test fixture: one-shot emitter past its cap (3 spawned, cap 2). -/
def c3wEm : BaseEmitter :=
  { (default : BaseEmitter) with
    max_particles := ParticleLimit.Strict 2
    resurrect_particles := false
    spawned_particles := 3 }

/-- Test fixture: a live particle at local position (1,2,3). -/
def c4p : Particle := { (default : Particle) with position := ⟨1, 2, 3⟩ }

/-- Test fixture: system whose owning node sits at global (10,0,0) and whose
pool holds the one live particle. -/
def c4sys : ParticleSystem :=
  { base := ⟨⟨10, 0, 0⟩⟩, particles := [c4p], free_particles := [],
    emitters := [], texture := none, acceleration := Vec3.zero,
    color_over_lifetime := none }

/-- Test fixture: a registry whose callback accepts every kind id. -/
def c5cb : CustomEmitterFactory := ⟨some (fun k => Except.ok (default, k))⟩

/-- Test fixture: a registry with no callback registered. -/
def c5none : CustomEmitterFactory := ⟨none⟩

/-- Test fixture: fresh system with one box emitter, spawn rate 1/s. -/
def c7sys : ParticleSystem :=
  { base := ⟨Vec3.zero⟩, particles := [], free_particles := [],
    emitters := [Emitter.Box { (default : BoxEmitter) with
      emitter := { (default : BaseEmitter) with particle_spawn_rate := 1 } }],
    texture := none, acceleration := Vec3.zero, color_over_lifetime := none }

/-- Test fixture: one update of 1 s, particles living 1000 s. -/
def c7steps : List (ℚ × (ℕ → SpawnSeed)) := [(1, fun _ => constSeed 1000)]

/-- Test fixture: fresh system with one box emitter, spawn rate 1/s. -/
def c8sys : ParticleSystem :=
  { base := ⟨Vec3.zero⟩, particles := [], free_particles := [],
    emitters := [Emitter.Box { (default : BoxEmitter) with
      emitter := { (default : BaseEmitter) with particle_spawn_rate := 1 } }],
    texture := none, acceleration := Vec3.zero, color_over_lifetime := none }

/-- Test fixture: first update — spawns one particle that dies in the same
pass (lifetime draw 1/2 < dt = 1), freeing its slot. -/
def c8steps1 : List (ℚ × (ℕ → SpawnSeed)) := [(1, fun _ => constSeed (1/2))]

/-- Test fixture: the state after the first update. -/
def c8mid : ParticleSystem := (runUpdates c8steps1 c8sys).getD c8sys

/-- Test fixture: seed oracle of the second update (long-lived particle). -/
def c8seeds2 : ℕ → SpawnSeed := fun _ => constSeed 1000

/-- Test fixture: the state after the second update. -/
def c8fin : ParticleSystem := (c8mid.update 1 c8seeds2).getD c8sys

/-- Test fixture: the emitter list of `c8mid` after its tick. -/
def c8ems1 : List Emitter := (tickAll c8mid.emitters 1).getD []

/-- Test fixture: fresh unlimited emitter with spawn rate 1/s. -/
def c9em : BaseEmitter :=
  { (default : BaseEmitter) with particle_spawn_rate := 1 }

/-- Test fixture: emitter with spawn rate 2/s and 1/4 s of carried time. -/
def c9wEm : BaseEmitter :=
  { (default : BaseEmitter) with
    particle_spawn_rate := 2
    time := 1/4 }

lemma countP_ext {α : Type} (p q : α → Bool) :
    ∀ l : List α, (∀ a ∈ l, p a = q a) → l.countP p = l.countP q := by
  intro l
  induction l with
  | nil => intro _; rfl
  | cons a t ih =>
    intro h
    simp only [List.countP_cons, h a (by simp),
      ih (fun b hb => h b (by simp [hb]))]

lemma countP_split {α : Type} (pa pb : α → Bool) :
    ∀ l : List α,
      l.countP pa = l.countP (fun x => pa x && pb x)
        + l.countP (fun x => pa x && !(pb x)) := by
  intro l
  induction l with
  | nil => rfl
  | cons a t ih =>
    simp only [List.countP_cons]
    cases hpa : pa a <;> cases hpb : pb a <;> simp [ih] <;> omega

lemma countP_le_countP {α : Type} (p q : α → Bool) :
    ∀ l : List α, (∀ a ∈ l, p a = true → q a = true) →
      l.countP p ≤ l.countP q := by
  intro l
  induction l with
  | nil => intro _; simp
  | cons a t ih =>
    intro h
    simp only [List.countP_cons]
    have ht := ih (fun b hb => h b (by simp [hb]))
    cases hpa : p a
    · have : (if p a then 1 else 0) = 0 := by simp [hpa]
      simp [hpa]; omega
    · have := h a (by simp) hpa
      simp [hpa, this]; omega

lemma getD_set_ne {α : Type} (a d : α) :
    ∀ (l : List α) (i k : ℕ), i ≠ k → (l.set i a).getD k d = l.getD k d := by
  intro l
  induction l with
  | nil => intro i k _; simp
  | cons b t ih =>
    intro i k hik
    cases i with
    | zero =>
      cases k with
      | zero => exact absurd rfl hik
      | succ k2 => simp [List.set]
    | succ i2 =>
      cases k with
      | zero => simp [List.set]
      | succ k2 => simpa [List.set] using ih i2 k2 (by omega)

lemma getD_set_self {α : Type} (a d : α) :
    ∀ (l : List α) (i : ℕ), i < l.length → (l.set i a).getD i d = a := by
  intro l
  induction l with
  | nil => intro i h; simp at h
  | cons b t ih =>
    intro i h
    cases i with
    | zero => simp [List.set]
    | succ i2 => simpa [List.set] using ih i2 (by simpa using h)

lemma getD_of_length_le {α : Type} (d : α) :
    ∀ (l : List α) (i : ℕ), l.length ≤ i → l.getD i d = d := by
  intro l
  induction l with
  | nil => intro i _; simp
  | cons b t ih =>
    intro i h
    cases i with
    | zero => simp at h
    | succ i2 => simpa using ih i2 (by simpa using h)

lemma countP_set_add {α : Type} (a d : α) (q : α → Bool) :
    ∀ (l : List α) (i : ℕ), i < l.length →
      (l.set i a).countP q + (if q (l.getD i d) then 1 else 0)
        = l.countP q + (if q a then 1 else 0) := by
  intro l
  induction l with
  | nil => intro i h; simp at h
  | cons b t ih =>
    intro i h
    cases i with
    | zero => simp [List.set, List.countP_cons]; omega
    | succ i2 =>
      have := ih i2 (by simpa using h)
      simp only [List.set, List.countP_cons, List.getD_cons_succ]
      omega

lemma map_sum_range {α : Type} (d : α) (f : α → ℕ) :
    ∀ l : List α,
      (l.map f).sum
        = ((List.range l.length).map (fun j => f (l.getD j d))).sum := by
  intro l
  induction l with
  | nil => simp
  | cons a t ih =>
    rw [List.map_cons, List.sum_cons, List.length_cons,
      List.range_succ_eq_map, List.map_cons, List.sum_cons, List.map_map]
    have h2 : ((fun j => f ((a :: t).getD j d)) ∘ Nat.succ)
        = fun j => f (t.getD j d) := by
      funext j
      rfl
    rw [h2, List.getD_cons_zero, ih]

lemma sum_countP_range (l : List Particle) :
    ∀ n : ℕ,
      ((List.range n).map (fun j => l.countP (aliveWithIdx j))).sum
        = l.countP (fun p => p.alive && decide (p.emitter_index < n)) := by
  intro n
  induction n with
  | zero =>
    simp [List.countP_eq_zero]
  | succ n ih =>
    rw [List.range_succ, List.map_append, List.sum_append, ih]
    simp only [List.map_cons, List.map_nil, List.sum_cons, List.sum_nil]
    rw [countP_split (fun p => p.alive && decide (p.emitter_index < n + 1))
      (fun p => p.emitter_index == n) l]
    have e1 : l.countP (fun p =>
        (p.alive && decide (p.emitter_index < n + 1)) && (p.emitter_index == n))
        = l.countP (aliveWithIdx n) := by
      apply countP_ext
      intro p _
      by_cases h : p.emitter_index = n
      · simp [aliveWithIdx, h]
      · have hb : (p.emitter_index == n) = false := by simpa using h
        simp [aliveWithIdx, hb]
    have e2 : l.countP (fun p =>
        (p.alive && decide (p.emitter_index < n + 1)) && !(p.emitter_index == n))
        = l.countP (fun p => p.alive && decide (p.emitter_index < n)) := by
      apply countP_ext
      intro p _
      by_cases h : p.emitter_index = n
      · simp [h]
      · have hiff : p.emitter_index < n + 1 ↔ p.emitter_index < n := by omega
        simp [h, hiff]
    rw [e1, e2]
    omega

lemma aliveCount_eq_base (e : Emitter) (b : BaseEmitter)
    (h : e.base = some b) : e.aliveCount = b.alive_particles := by
  cases e <;> simp_all [Emitter.base, Emitter.aliveCount]

lemma base_withBase (e : Emitter) (b b0 : BaseEmitter) (h : e.base = some b0) :
    (e.withBase b).base = some b := by
  cases e <;> simp_all [Emitter.base, Emitter.withBase]

lemma sysInv_alive_idx_lt (parts : List Particle) (ems : List Emitter)
    (free : List ℕ) (h : SysInv parts ems free) :
    ∀ p ∈ parts, p.alive = true → p.emitter_index < ems.length := by
  intro p hp ha
  by_contra hge
  have h0 : emittersAliveAt ems p.emitter_index = 0 := by
    unfold emittersAliveAt
    rw [getD_of_length_le _ _ _ (by omega)]
    rfl
  have hpos : 0 < parts.countP (aliveWithIdx p.emitter_index) := by
    rw [List.countP_pos_iff]
    exact ⟨p, hp, by simp [aliveWithIdx, ha]⟩
  rw [h.1 p.emitter_index] at h0
  omega

lemma sysInv_sum (parts : List Particle) (ems : List Emitter) (free : List ℕ)
    (h : SysInv parts ems free) :
    (ems.map Emitter.aliveCount).sum = parts.countP (fun p => p.alive) := by
  rw [map_sum_range Emitter.Unknown]
  have h1 : ((List.range ems.length).map
      (fun j => Emitter.aliveCount (ems.getD j Emitter.Unknown))).sum
      = ((List.range ems.length).map
        (fun j => parts.countP (aliveWithIdx j))).sum := by
    apply congrArg
    apply List.map_congr_left
    intro j _
    exact h.1 j
  rw [h1, sum_countP_range]
  apply countP_ext
  intro p hp
  cases ha : p.alive
  · simp
  · simp [sysInv_alive_idx_lt parts ems free h p hp ha]

lemma tick_keeps_alive (b : BaseEmitter) (dt : ℚ) :
    (b.tick dt).alive_particles = b.alive_particles := by
  unfold BaseEmitter.tick
  cases b.max_particles <;> simp <;> split <;> rfl

lemma ptsAt_eq (ems : List Emitter) (j : ℕ) (b : BaseEmitter)
    (h : (ems.getD j Emitter.Unknown).base = some b) :
    ptsAt ems j = b.particles_to_spawn := by
  unfold ptsAt
  rw [h]
  rfl

lemma base_isSome_lt_length (ems : List Emitter) (j : ℕ)
    (h : ((ems.getD j Emitter.Unknown).base).isSome = true) :
    j < ems.length := by
  by_contra hge
  rw [getD_of_length_le _ _ _ (by omega)] at h
  simp [Emitter.base] at h

lemma incAliveAt_length (ems : List Emitter) :
    ∀ j, (incAliveAt ems j).length = ems.length := by
  induction ems with
  | nil => intro j; rfl
  | cons e t ih =>
    intro j
    cases j with
    | zero => simp [incAliveAt]
    | succ j2 => simp [incAliveAt, ih j2]

lemma emAt_incAliveAt_self (ems : List Emitter) (j : ℕ) (b : BaseEmitter)
    (h : (ems.getD j Emitter.Unknown).base = some b) :
    emittersAliveAt (incAliveAt ems j) j = emittersAliveAt ems j + 1 := by
  induction ems generalizing j with
  | nil =>
    simp [Emitter.base] at h
  | cons e t ih =>
    cases j with
    | zero =>
      simp only [List.getD_cons_zero] at h
      unfold emittersAliveAt incAliveAt
      rw [h]
      simp only [List.getD_cons_zero]
      rw [aliveCount_eq_base _ _ (base_withBase e _ b h),
        aliveCount_eq_base e b h]
    | succ j2 =>
      simp only [List.getD_cons_succ] at h
      unfold emittersAliveAt incAliveAt
      simp only [List.getD_cons_succ]
      exact ih j2 h

lemma emAt_incAliveAt_ne (ems : List Emitter) (j j' : ℕ) (h : j' ≠ j) :
    emittersAliveAt (incAliveAt ems j) j' = emittersAliveAt ems j' := by
  induction ems generalizing j j' with
  | nil => cases j <;> rfl
  | cons e t ih =>
    cases j with
    | zero =>
      cases j' with
      | zero => exact absurd rfl h
      | succ k => unfold emittersAliveAt incAliveAt; simp
    | succ j2 =>
      cases j' with
      | zero => unfold emittersAliveAt incAliveAt; simp
      | succ k =>
        unfold emittersAliveAt incAliveAt
        simp only [List.getD_cons_succ]
        exact ih j2 k (by omega)

lemma base_pts_withBase (e : Emitter) (b : BaseEmitter) :
    ((e.withBase b).base).elim 0 (fun x => x.particles_to_spawn)
      = (e.base).elim 0 (fun _ => b.particles_to_spawn) := by
  cases e <;> simp [Emitter.withBase, Emitter.base]

lemma ptsAt_incAliveAt (ems : List Emitter) (j : ℕ) :
    ∀ j', ptsAt (incAliveAt ems j) j' = ptsAt ems j' := by
  induction ems generalizing j with
  | nil => intro j'; cases j <;> rfl
  | cons e t ih =>
    intro j'
    cases j with
    | zero =>
      cases j' with
      | zero =>
        unfold ptsAt incAliveAt
        simp only [List.getD_cons_zero]
        cases he : e.base with
        | none => simp [he]
        | some b => simp [he, base_pts_withBase, aliveCount_eq_base]
      | succ k => unfold ptsAt incAliveAt; simp
    | succ j2 =>
      cases j' with
      | zero => unfold ptsAt incAliveAt; simp
      | succ k =>
        unfold ptsAt incAliveAt
        simp only [List.getD_cons_succ]
        exact ih j2 k

lemma baseSome_incAliveAt (ems : List Emitter) (j : ℕ) :
    ∀ j', (((incAliveAt ems j).getD j' Emitter.Unknown).base).isSome
      = (((ems.getD j' Emitter.Unknown).base)).isSome := by
  induction ems generalizing j with
  | nil => intro j'; cases j <;> rfl
  | cons e t ih =>
    intro j'
    cases j with
    | zero =>
      cases j' with
      | zero =>
        unfold incAliveAt
        simp only [List.getD_cons_zero]
        cases he : e.base with
        | none => simp [he]
        | some b => simp [he, base_withBase e _ b he]
      | succ k => unfold incAliveAt; simp
    | succ j2 =>
      cases j' with
      | zero => unfold incAliveAt; simp
      | succ k =>
        unfold incAliveAt
        simp only [List.getD_cons_succ]
        exact ih j2 k

lemma decAliveAt_spec (ems : List Emitter) (j : ℕ)
    (h : 1 ≤ emittersAliveAt ems j) :
    ∀ j', emittersAliveAt (decAliveAt ems j) j'
      = emittersAliveAt ems j' - (if j' = j then 1 else 0) := by
  induction ems generalizing j with
  | nil =>
    exfalso
    unfold emittersAliveAt at h
    rw [getD_of_length_le _ _ _ (by simp)] at h
    simp [Emitter.aliveCount] at h
  | cons e t ih =>
    intro j'
    cases j with
    | zero =>
      unfold emittersAliveAt at h
      simp only [List.getD_cons_zero] at h
      cases j' with
      | zero =>
        unfold emittersAliveAt decAliveAt
        simp only [List.getD_cons_zero]
        cases he : e.base with
        | none =>
          exfalso
          cases e <;> simp_all [Emitter.base, Emitter.aliveCount]
        | some b =>
          rw [aliveCount_eq_base _ _ (base_withBase e _ b he),
            aliveCount_eq_base e b he]
          simp
      | succ k =>
        unfold emittersAliveAt decAliveAt
        simp
    | succ j2 =>
      unfold emittersAliveAt at h
      simp only [List.getD_cons_succ] at h
      cases j' with
      | zero =>
        unfold emittersAliveAt decAliveAt
        simp
      | succ k =>
        have h2 := ih j2 h k
        have hIte : (if k + 1 = j2 + 1 then (1 : ℕ) else 0)
            = if k = j2 then 1 else 0 := by
          by_cases hk : k = j2 <;> simp [hk]
        unfold emittersAliveAt at h2 ⊢
        simp only [decAliveAt, List.getD_cons_succ]
        rw [hIte]
        exact h2

lemma tickE_some (e : Emitter) (dt : ℚ) (e2 : Emitter)
    (h : e.tickE dt = some e2) : e2.aliveCount = e.aliveCount := by
  unfold Emitter.tickE at h
  cases he : e.base with
  | none => rw [he] at h; simp at h
  | some b =>
    rw [he] at h
    simp at h
    rw [← h, aliveCount_eq_base _ _ (base_withBase e _ b he),
      tick_keeps_alive, aliveCount_eq_base e b he]

lemma tickAll_spec (dt : ℚ) :
    ∀ (ems ems1 : List Emitter), tickAll ems dt = some ems1 →
      ems1.length = ems.length ∧
      ∀ j, emittersAliveAt ems1 j = emittersAliveAt ems j := by
  intro ems
  induction ems with
  | nil =>
    intro ems1 h
    simp only [tickAll, Option.some.injEq] at h
    subst h
    exact ⟨rfl, fun _ => rfl⟩
  | cons e t ih =>
    intro ems1 h
    cases he : e.tickE dt with
    | none => simp [tickAll, he] at h
    | some e2 =>
      cases ht : tickAll t dt with
      | none => simp [tickAll, he, ht] at h
      | some t2 =>
        simp only [tickAll, he, ht, Option.some.injEq] at h
        subst h
        obtain ⟨hlen, hAt⟩ := ih t2 ht
        refine ⟨by simp [hlen], ?_⟩
        intro j
        cases j with
        | zero =>
          unfold emittersAliveAt
          simp only [List.getD_cons_zero]
          exact tickE_some e dt e2 he
        | succ k =>
          unfold emittersAliveAt at hAt ⊢
          simp only [List.getD_cons_succ]
          exact hAt k

lemma emitParticle_pres (em : Emitter) (s : SpawnSeed) (p p2 : Particle)
    (h : em.emitParticle s p = some p2) :
    p2.alive = p.alive ∧ p2.emitter_index = p.emitter_index := by
  cases em <;> simp_all [Emitter.emitParticle, BoxEmitter.emit,
    SphereEmitter.emit, customEmit, BaseEmitter.emit] <;> subst h <;> simp

lemma placeParticle_spec (parts : List Particle) (free : List ℕ) (p : Particle)
    (out : List Particle × List ℕ) (h : placeParticle parts free p = some out)
    (hnd : free.Nodup)
    (hfd : ∀ i ∈ free, i < parts.length ∧ (parts.getD i default).alive = false) :
    (∀ q : Particle → Bool, (∀ x : Particle, x.alive = false → q x = false) →
      out.1.countP q = parts.countP q + (if q p then 1 else 0)) ∧
    out.1.length = parts.length + (1 - min 1 free.length) ∧
    out.2.length = free.length - 1 ∧
    out.2.Nodup ∧
    (∀ i ∈ out.2, i < out.1.length ∧ (out.1.getD i default).alive = false) := by
  cases free with
  | nil =>
    simp only [placeParticle, Option.some.injEq] at h
    subst h
    refine ⟨?_, by simp, by simp, by simp, by simp⟩
    intro q _
    simp [List.countP_append, List.countP_cons]
  | cons i0 rest =>
    have hi0 := hfd i0 (by simp)
    simp only [placeParticle, hi0.1, if_true, Option.some.injEq] at h
    subst h
    constructor
    · intro q hq
      have hc := countP_set_add p default q parts i0 hi0.1
      rw [hq _ hi0.2] at hc
      simp at hc
      simp [hc]
    refine ⟨by simp [hi0.1], by simp, (List.nodup_cons.mp hnd).2, ?_⟩
    intro i hi
    have hmem := hfd i (by simp [hi])
    have hne : i0 ≠ i := by
      intro hcontra
      exact (List.nodup_cons.mp hnd).1 (hcontra ▸ hi)
    refine ⟨by simpa using hmem.1, ?_⟩
    simp only []
    rw [getD_set_ne p default parts i0 i hne]
    exact hmem.2


lemma spawnCount_spec (seeds : ℕ → SpawnSeed) (j : ℕ) :
    ∀ (k sc : ℕ) (ems : List Emitter) (parts : List Particle) (free : List ℕ)
      (out : List Emitter × List Particle × List ℕ × ℕ),
      spawnCount j seeds k sc ems parts free = some out →
      SysInv parts ems free →
      (((ems.getD j Emitter.Unknown).base)).isSome = true →
      SysInv out.2.1 out.1 out.2.2.1 ∧
      out.1.length = ems.length ∧
      (∀ j', ptsAt out.1 j' = ptsAt ems j') ∧
      (∀ j', (((out.1.getD j' Emitter.Unknown).base)).isSome
        = (((ems.getD j' Emitter.Unknown).base)).isSome) ∧
      out.2.1.length = parts.length + (k - min k free.length) ∧
      out.2.2.1.length = free.length - k := by
  intro k
  induction k with
  | zero =>
    intro sc ems parts free out h hinv _
    simp only [spawnCount, Option.some.injEq] at h
    subst h
    exact ⟨hinv, rfl, fun _ => rfl, fun _ => rfl, by simp, by simp⟩
  | succ k ih =>
    intro sc ems parts free out h hinv hsome
    obtain ⟨b, hb⟩ := Option.isSome_iff_exists.mp hsome
    simp only [spawnCount] at h
    split at h
    · exact absurd h (by simp)
    · rename_i p hp
      split at h
      · exact absurd h (by simp)
      · rename_i pf hpf
        obtain ⟨hpa, hpi⟩ := emitParticle_pres _ _ _ _ hp
        have hpa2 : p.alive = true := by rw [hpa]; rfl
        have hpi2 : p.emitter_index = j := by rw [hpi]; rfl
        obtain ⟨hq, hlen1, hlenf, hnd2, hfd2⟩ :=
          placeParticle_spec parts free p pf hpf hinv.2.1 hinv.2.2
        have hinv2 : SysInv pf.1 (incAliveAt ems j) pf.2 := by
          refine ⟨?_, hnd2, hfd2⟩
          intro j'
          have hcount := hq (aliveWithIdx j') (by
            intro x hx
            simp [aliveWithIdx, hx])
          by_cases hj : j' = j
          · subst hj
            rw [emAt_incAliveAt_self ems j' b hb, hinv.1 j', hcount]
            have htrue : aliveWithIdx j' p = true := by
              simp [aliveWithIdx, hpa2, hpi2]
            simp [htrue]
          · rw [emAt_incAliveAt_ne ems j j' hj, hinv.1 j', hcount]
            have hfalse : aliveWithIdx j' p = false := by
              simp only [aliveWithIdx, hpa2, hpi2, Bool.true_and]
              exact beq_eq_false_iff_ne.mpr (fun hh => hj hh.symm)
            simp [hfalse]
        have hsome2 :
            (((incAliveAt ems j).getD j Emitter.Unknown).base).isSome = true := by
          rw [baseSome_incAliveAt]
          exact hsome
        obtain ⟨hinv3, hlen3, hpts3, hbs3, hplen3, hflen3⟩ :=
          ih (sc + 1) (incAliveAt ems j) pf.1 pf.2 out h hinv2 hsome2
        refine ⟨hinv3, ?_, ?_, ?_, ?_, ?_⟩
        · rw [hlen3, incAliveAt_length]
        · intro j'
          rw [hpts3 j', ptsAt_incAliveAt]
        · intro j'
          rw [hbs3 j', baseSome_incAliveAt]
        · rw [hplen3, hlen1, hlenf]
          omega
        · rw [hflen3, hlenf]
          omega

lemma spawnEmitters_spec (seeds : ℕ → SpawnSeed) :
    ∀ (js : List ℕ) (sc : ℕ) (ems : List Emitter) (parts : List Particle)
      (free : List ℕ) (out : List Emitter × List Particle × List ℕ),
      spawnEmitters seeds js sc ems parts free = some out →
      SysInv parts ems free →
      SysInv out.2.1 out.1 out.2.2 ∧
      out.1.length = ems.length ∧
      out.2.1.length = parts.length +
        ((js.map (ptsAt ems)).sum
          - min ((js.map (ptsAt ems)).sum) free.length) ∧
      out.2.2.length = free.length - (js.map (ptsAt ems)).sum := by
  intro js
  induction js with
  | nil =>
    intro sc ems parts free out h hinv
    simp only [spawnEmitters, Option.some.injEq] at h
    subst h
    exact ⟨hinv, rfl, by simp, by simp⟩
  | cons j js ih =>
    intro sc ems parts free out h hinv
    simp only [spawnEmitters] at h
    split at h
    · exact absurd h (by simp)
    · rename_i b hb
      split at h
      · exact absurd h (by simp)
      · rename_i out1 hsp
        obtain ⟨hinv1, hlen1, hpts1, hbs1, hplen1, hflen1⟩ :=
          spawnCount_spec seeds j b.particles_to_spawn sc ems parts free out1
            hsp hinv (by rw [hb]; rfl)
        obtain ⟨hinv2, hlen2, hplen2, hflen2⟩ :=
          ih out1.2.2.2 out1.1 out1.2.1 out1.2.2.1 out h hinv1
        have hmapEq : js.map (ptsAt out1.1) = js.map (ptsAt ems) :=
          List.map_congr_left (fun x _ => hpts1 x)
        have hk : ptsAt ems j = b.particles_to_spawn := ptsAt_eq ems j b hb
        refine ⟨hinv2, by rw [hlen2, hlen1], ?_, ?_⟩
        · rw [hplen2, hmapEq, hplen1, hflen1]
          simp only [List.map_cons, List.sum_cons, hk]
          omega
        · rw [hflen2, hmapEq, hflen1]
          simp only [List.map_cons, List.sum_cons, hk]
          omega

lemma stepParticle_dead (dt : ℚ) (accOfs : Vec3) (grad : Option (ℚ → Color))
    (p : Particle) (h : p.alive = false) :
    stepParticle dt accOfs grad p = p := by
  simp [stepParticle, h]

lemma stepParticle_dies (dt : ℚ) (accOfs : Vec3) (grad : Option (ℚ → Color))
    (p : Particle) (h : dieCond dt p = true) :
    (stepParticle dt accOfs grad p).alive = false := by
  simp only [dieCond, Bool.and_eq_true, decide_eq_true_eq] at h
  simp [stepParticle, h.1, h.2]

lemma stepParticle_aliveWithIdx (dt : ℚ) (accOfs : Vec3)
    (grad : Option (ℚ → Color)) (j : ℕ) (p : Particle) :
    aliveWithIdx j (stepParticle dt accOfs grad p)
      = (aliveWithIdx j p && !(dieCond dt p)) := by
  cases ha : p.alive with
  | false => simp [stepParticle, aliveWithIdx, dieCond, ha]
  | true =>
    by_cases hle : p.initial_lifetime ≤ p.lifetime + dt
    · simp [stepParticle, aliveWithIdx, dieCond, ha, hle]
    · simp [stepParticle, aliveWithIdx, dieCond, ha, hle]

lemma countP_map_step (dt : ℚ) (accOfs : Vec3) (grad : Option (ℚ → Color))
    (j : ℕ) (l : List Particle) :
    (l.map (stepParticle dt accOfs grad)).countP (aliveWithIdx j)
      = l.countP (aliveWithIdx j) - l.countP (dieIdx dt j) := by
  rw [List.countP_map]
  have h1 : l.countP ((aliveWithIdx j) ∘ stepParticle dt accOfs grad)
      = l.countP (fun p => aliveWithIdx j p && !(dieCond dt p)) :=
    countP_ext _ _ l (fun p _ => by
      simp [Function.comp, stepParticle_aliveWithIdx])
  rw [h1]
  have h2 := countP_split (aliveWithIdx j) (dieCond dt) l
  have h3 : l.countP (fun p => aliveWithIdx j p && dieCond dt p)
      = l.countP (dieIdx dt j) :=
    countP_ext _ _ l (fun p _ => by
      cases hpa : p.alive <;>
        cases hle : decide (p.initial_lifetime ≤ p.lifetime + dt) <;>
        cases hidx : (p.emitter_index == j) <;>
        simp [aliveWithIdx, dieCond, dieIdx, hpa, hle, hidx])
  omega

lemma dieCond_false_of_not (dt : ℚ) (p : Particle)
    (h : ¬(p.alive = true ∧ p.initial_lifetime ≤ p.lifetime + dt)) :
    dieCond dt p = false := by
  by_cases hpa : p.alive = true
  · have hnle : ¬(p.initial_lifetime ≤ p.lifetime + dt) :=
      fun hle => h ⟨hpa, hle⟩
    simp [dieCond, hpa, hnle]
  · have hf : p.alive = false := by
      cases hv : p.alive
      · rfl
      · exact absurd hv hpa
    simp [dieCond, hf]

lemma integrateLoop_spec (dt : ℚ) (accOfs : Vec3) (grad : Option (ℚ → Color)) :
    ∀ (l : List Particle) (i : ℕ) (ems : List Emitter) (free : List ℕ),
      (∀ j, l.countP (aliveWithIdx j) ≤ emittersAliveAt ems j) →
      free.Nodup →
      (∀ kk ∈ free, kk < i ∨ (kk - i < l.length ∧
        (l.getD (kk - i) default).alive = false)) →
      (integrateLoop dt accOfs grad l i ems free).1
          = l.map (stepParticle dt accOfs grad) ∧
      (∀ j, emittersAliveAt (integrateLoop dt accOfs grad l i ems free).2.1 j
          = emittersAliveAt ems j - l.countP (dieIdx dt j)) ∧
      (integrateLoop dt accOfs grad l i ems free).2.2.Nodup ∧
      (∀ kk ∈ (integrateLoop dt accOfs grad l i ems free).2.2,
        kk ∈ free ∨ i ≤ kk) ∧
      (∀ kk ∈ (integrateLoop dt accOfs grad l i ems free).2.2,
        kk < i ∨ (kk - i < l.length ∧
          ((l.map (stepParticle dt accOfs grad)).getD (kk - i) default).alive
            = false)) := by
  intro l
  induction l with
  | nil =>
    intro i ems free H1 H2 H3
    refine ⟨rfl, ?_, H2, ?_, ?_⟩
    · intro j
      simp [integrateLoop]
    · intro kk hk
      exact Or.inl hk
    · intro kk hk
      rcases H3 kk hk with h | h
      · exact Or.inl h
      · exact absurd h.1 (by simp)
  | cons p rest ih =>
    intro i ems free H1 H2 H3
    by_cases hd : p.alive = true ∧ p.initial_lifetime ≤ p.lifetime + dt
    · -- the particle dies this pass
      have hdie : dieCond dt p = true := by
        simp [dieCond, hd.1, hd.2]
      have hge : 1 ≤ emittersAliveAt ems p.emitter_index := by
        have hcp := H1 p.emitter_index
        have hpos : 0 < (p :: rest).countP (aliveWithIdx p.emitter_index) := by
          rw [List.countP_pos_iff]
          exact ⟨p, by simp, by simp [aliveWithIdx, hd.1]⟩
        omega
      have hdec := decAliveAt_spec ems p.emitter_index hge
      have hnotmem : i ∉ free := by
        intro hmem
        rcases H3 i hmem with hlt | hpair
        · omega
        · have hdead := hpair.2
          rw [Nat.sub_self, List.getD_cons_zero, hd.1] at hdead
          exact absurd hdead (by simp)
      have H1x : ∀ j, rest.countP (aliveWithIdx j)
          ≤ emittersAliveAt (decAliveAt ems p.emitter_index) j := by
        intro j
        rw [hdec j]
        have hcc := H1 j
        rw [List.countP_cons] at hcc
        by_cases hj : j = p.emitter_index
        · have hwt : aliveWithIdx j p = true := by
            simp [aliveWithIdx, hd.1, hj]
          rw [hwt] at hcc
          simp at hcc
          simp only [if_pos hj]
          omega
        · have hne : (if j = p.emitter_index then (1 : ℕ) else 0) = 0 := by
            simp [hj]
          rw [hne]
          omega
      have H2x : (i :: free).Nodup := List.nodup_cons.mpr ⟨hnotmem, H2⟩
      have H3x : ∀ kk ∈ i :: free, kk < i + 1 ∨ (kk - (i + 1) < rest.length ∧
          (rest.getD (kk - (i + 1)) default).alive = false) := by
        intro kk hkk
        rcases List.mem_cons.mp hkk with hkeq | hkmem
        · exact Or.inl (by omega)
        · rcases H3 kk hkmem with hlt | hpair
          · exact Or.inl (by omega)
          · by_cases hki : kk < i + 1
            · exact Or.inl hki
            · have hkiL : kk - i = (kk - (i + 1)) + 1 := by omega
              rw [hkiL, List.length_cons, List.getD_cons_succ] at hpair
              exact Or.inr ⟨by omega, hpair.2⟩
      obtain ⟨ha, hb, hc, hmem, hdead⟩ :=
        ih (i + 1) (decAliveAt ems p.emitter_index) (i :: free) H1x H2x H3x
      have hstep : integrateLoop dt accOfs grad (p :: rest) i ems free
          = (stepParticle dt accOfs grad p ::
              (integrateLoop dt accOfs grad rest (i + 1)
                (decAliveAt ems p.emitter_index) (i :: free)).1,
             (integrateLoop dt accOfs grad rest (i + 1)
               (decAliveAt ems p.emitter_index) (i :: free)).2.1,
             (integrateLoop dt accOfs grad rest (i + 1)
               (decAliveAt ems p.emitter_index) (i :: free)).2.2) := by
        simp [integrateLoop, hd]
      rw [hstep]
      refine ⟨?_, ?_, hc, ?_, ?_⟩
      · simp only [List.map_cons]
        rw [ha]
      · intro j
        simp only []
        rw [hb j, hdec j, List.countP_cons]
        have hite1 : (if j = p.emitter_index then (1 : ℕ) else 0)
            = (if dieIdx dt j p = true then (1 : ℕ) else 0) := by
          by_cases hj : j = p.emitter_index
          · simp [hj, dieIdx, hdie]
          · have hb2 : (p.emitter_index == j) = false := by
              simpa using fun hh => hj hh.symm
            simp [hj, dieIdx, hb2]
        rw [hite1]
        omega
      · intro kk hkk
        rcases hmem kk hkk with hkin | hkge
        · rcases List.mem_cons.mp hkin with hkeq | hkmem
          · exact Or.inr (by omega)
          · exact Or.inl hkmem
        · exact Or.inr (by omega)
      · intro kk hkk
        by_cases hki : kk < i
        · exact Or.inl hki
        · by_cases hkeq : kk = i
          · subst hkeq
            refine Or.inr ⟨by simp, ?_⟩
            rw [Nat.sub_self]
            simp only [List.map_cons, List.getD_cons_zero]
            exact stepParticle_dies dt accOfs grad p hdie
          · have hge2 : i + 1 ≤ kk := by omega
            rcases hdead kk hkk with hl | hp2
            · omega
            · refine Or.inr ⟨by simp; omega, ?_⟩
              have hkiL : kk - i = (kk - (i + 1)) + 1 := by omega
              rw [hkiL]
              simp only [List.map_cons, List.getD_cons_succ]
              exact hp2.2
    · -- the particle survives (or is already dead)
      have hdief : dieCond dt p = false := dieCond_false_of_not dt p hd
      have H1x : ∀ j, rest.countP (aliveWithIdx j) ≤ emittersAliveAt ems j := by
        intro j
        have hcc := H1 j
        rw [List.countP_cons] at hcc
        omega
      have H3x : ∀ kk ∈ free, kk < i + 1 ∨ (kk - (i + 1) < rest.length ∧
          (rest.getD (kk - (i + 1)) default).alive = false) := by
        intro kk hkmem
        rcases H3 kk hkmem with hlt | hpair
        · exact Or.inl (by omega)
        · by_cases hki : kk < i + 1
          · exact Or.inl hki
          · have hkiL : kk - i = (kk - (i + 1)) + 1 := by omega
            rw [hkiL, List.length_cons, List.getD_cons_succ] at hpair
            exact Or.inr ⟨by omega, hpair.2⟩
      obtain ⟨ha, hb, hc, hmem, hdead⟩ := ih (i + 1) ems free H1x H2 H3x
      have hstep : integrateLoop dt accOfs grad (p :: rest) i ems free
          = (stepParticle dt accOfs grad p ::
              (integrateLoop dt accOfs grad rest (i + 1) ems free).1,
             (integrateLoop dt accOfs grad rest (i + 1) ems free).2.1,
             (integrateLoop dt accOfs grad rest (i + 1) ems free).2.2) := by
        simp [integrateLoop, hd]
      rw [hstep]
      refine ⟨?_, ?_, hc, ?_, ?_⟩
      · simp only [List.map_cons]
        rw [ha]
      · intro j
        simp only []
        rw [hb j, List.countP_cons]
        have hdi : (if dieIdx dt j p = true then (1 : ℕ) else 0) = 0 := by
          simp [dieIdx, hdief]
        rw [hdi]
        omega
      · intro kk hkk
        rcases hmem kk hkk with hkin | hkge
        · exact Or.inl hkin
        · exact Or.inr (by omega)
      · intro kk hkk
        by_cases hki : kk < i
        · exact Or.inl hki
        · by_cases hkeq : kk = i
          · have hin : kk ∈ free := by
              rcases hmem kk hkk with hkin | hkge
              · exact hkin
              · omega
            rcases H3 kk hin with hlt | hpair
            · omega
            · have hdeadp := hpair.2
              have hz : kk - i = 0 := by omega
              rw [hz, List.getD_cons_zero] at hdeadp
              refine Or.inr ⟨by rw [hz]; simp, ?_⟩
              rw [hz]
              simp only [List.map_cons, List.getD_cons_zero]
              rw [stepParticle_dead dt accOfs grad p hdeadp]
              exact hdeadp
          · have hge2 : i + 1 ≤ kk := by omega
            rcases hdead kk hkk with hl | hp2
            · omega
            · refine Or.inr ⟨by simp; omega, ?_⟩
              have hkiL : kk - i = (kk - (i + 1)) + 1 := by omega
              rw [hkiL]
              simp only [List.map_cons, List.getD_cons_succ]
              exact hp2.2

lemma integrate_inv (dt : ℚ) (accOfs : Vec3) (grad : Option (ℚ → Color))
    (parts : List Particle) (ems : List Emitter) (free : List ℕ)
    (hinv : SysInv parts ems free) :
    SysInv (integrateLoop dt accOfs grad parts 0 ems free).1
      (integrateLoop dt accOfs grad parts 0 ems free).2.1
      (integrateLoop dt accOfs grad parts 0 ems free).2.2 ∧
    (integrateLoop dt accOfs grad parts 0 ems free).1.length = parts.length := by
  obtain ⟨ha, hb, hc, _, he⟩ := integrateLoop_spec dt accOfs grad parts 0 ems
    free (fun j => le_of_eq (hinv.1 j).symm) hinv.2.1
    (fun kk hk => Or.inr (by simpa using hinv.2.2 kk hk))
  refine ⟨⟨?_, hc, ?_⟩, by rw [ha]; simp⟩
  · intro j
    rw [hb j, ha, countP_map_step, hinv.1 j]
  · intro kk hk
    rcases he kk hk with h | h
    · omega
    · refine ⟨?_, ?_⟩
      · rw [ha]
        simpa using h.1
      · rw [ha]
        simpa using h.2

lemma totalToSpawn_range (ems : List Emitter) :
    totalToSpawn ems = ((List.range ems.length).map (ptsAt ems)).sum := by
  unfold totalToSpawn ptsAt
  exact map_sum_range Emitter.Unknown _ ems

lemma update_spec (sys : ParticleSystem) (dt : ℚ) (seeds : ℕ → SpawnSeed)
    (sys2 : ParticleSystem) (h : sys.update dt seeds = some sys2)
    (hinv : SysInv sys.particles sys.emitters sys.free_particles) :
    SysInv sys2.particles sys2.emitters sys2.free_particles ∧
    (∀ ems1, tickAll sys.emitters dt = some ems1 →
      sys2.particles.length = sys.particles.length
        + (totalToSpawn ems1
           - min (totalToSpawn ems1) sys.free_particles.length)) := by
  simp only [ParticleSystem.update] at h
  split at h
  · exact absurd h (by simp)
  · rename_i ems1 ht
    split at h
    · exact absurd h (by simp)
    · rename_i sp hsp
      have hs2 := Option.some.inj h
      subst hs2
      obtain ⟨hlen1, hAt1⟩ := tickAll_spec dt sys.emitters ems1 ht
      have hinvT : SysInv sys.particles ems1 sys.free_particles :=
        ⟨fun j => (hAt1 j).trans (hinv.1 j), hinv.2.1, hinv.2.2⟩
      obtain ⟨hinvS, hlenS, hplenS, hflenS⟩ :=
        spawnEmitters_spec seeds (List.range ems1.length) 0 ems1 sys.particles
          sys.free_particles sp hsp hinvT
      obtain ⟨hinvI, hlenI⟩ := integrate_inv dt (sys.acceleration.scale (dt*dt))
        sys.color_over_lifetime sp.2.1 sp.1 sp.2.2 hinvS
      refine ⟨hinvI, ?_⟩
      intro ems1b htb
      have hEq : ems1b = ems1 := by
        rw [ht] at htb
        exact (Option.some.inj htb).symm
      subst hEq
      show (integrateLoop dt (sys.acceleration.scale (dt*dt))
          sys.color_over_lifetime sp.2.1 0 sp.1 sp.2.2).1.length
        = sys.particles.length + (totalToSpawn ems1b
           - min (totalToSpawn ems1b) sys.free_particles.length)
      rw [hlenI, hplenS, totalToSpawn_range]

lemma runUpdates_inv :
    ∀ (steps : List (ℚ × (ℕ → SpawnSeed))) (sys s : ParticleSystem),
      SysInv sys.particles sys.emitters sys.free_particles →
      runUpdates steps sys = some s →
      SysInv s.particles s.emitters s.free_particles := by
  intro steps
  induction steps with
  | nil =>
    intro sys s hinv h
    simp only [runUpdates, Option.some.injEq] at h
    subst h
    exact hinv
  | cons st rest ih =>
    intro sys s hinv h
    simp only [runUpdates] at h
    split at h
    · exact absurd h (by simp)
    · rename_i sys2 hu
      exact ih sys2 s (update_spec sys st.1 st.2 sys2 hu hinv).1 h

lemma fresh_inv (sys : ParticleSystem) (hf : FreshSystem sys) :
    SysInv sys.particles sys.emitters sys.free_particles := by
  obtain ⟨hp, hfree, hems⟩ := hf
  refine ⟨?_, by rw [hfree]; exact List.nodup_nil, by rw [hfree]; simp⟩
  intro j
  rw [hp]
  simp only [List.countP_nil]
  unfold emittersAliveAt
  by_cases hj : j < sys.emitters.length
  · rw [List.getD_eq_getElem sys.emitters Emitter.Unknown hj]
    exact hems _ (sys.emitters.getElem_mem hj)
  · rw [getD_of_length_le _ _ _ (by omega)]
    rfl

lemma filterMap_enumFrom_length {β : Type} (f : ℕ × Particle → Option β)
    (hf : ∀ ip, (f ip).isSome = ip.2.alive) :
    ∀ (l : List Particle) (n : ℕ),
      ((List.enumFrom n l).filterMap f).length
        = l.countP (fun p => p.alive) := by
  intro l
  induction l with
  | nil => intro n; rfl
  | cons p t ih =>
    intro n
    have hstep : List.enumFrom n (p :: t) = (n, p) :: List.enumFrom (n + 1) t :=
      rfl
    rw [hstep, List.filterMap_cons, List.countP_cons]
    have hfp := hf (n, p)
    cases hfpv : f (n, p) with
    | none =>
      rw [hfpv] at hfp
      simp only [Option.isSome_none] at hfp
      rw [← hfp]
      simp [ih]
    | some b =>
      rw [hfpv] at hfp
      simp only [Option.isSome_some] at hfp
      rw [← hfp]
      simp [ih]

lemma collectAlive_length (sys : ParticleSystem) (cam : Vec3) :
    (collectAlive sys cam).length = sys.particles.countP (fun p => p.alive) := by
  unfold collectAlive
  exact filterMap_enumFrom_length _
    (fun ip => by cases h : ip.2.alive <;> simp [h]) sys.particles 0

lemma sortedCollected_length (sys : ParticleSystem) (cam : Vec3) :
    (sortedCollected sys cam).length
      = sys.particles.countP (fun p => p.alive) := by
  unfold sortedCollected
  rw [(List.perm_insertionSort farther (collectAlive sys cam)).length_eq]
  exact collectAlive_length sys cam

lemma emitQuads_lengths (parts : List Particle) :
    ∀ (l : List ℕ) (i : ℕ),
      (emitQuads parts l i).1.length = 4 * l.length ∧
      (emitQuads parts l i).2.length = 2 * l.length := by
  intro l
  induction l with
  | nil => intro i; exact ⟨rfl, rfl⟩
  | cons idx rest ih =>
    intro i
    have h := ih (i + 1)
    simp only [emitQuads, quadVertices, List.length_append, List.length_cons,
      List.length_nil, h.1, h.2]
    constructor <;> omega

lemma getD_vert_shift (a b c d : Vertex) (rest : List Vertex) (n : ℕ)
    (dv : Vertex) :
    (a :: b :: c :: d :: rest).getD (n + 4) dv = rest.getD n dv := by
  rw [show n + 4 = n + 1 + 1 + 1 + 1 from by omega]
  simp only [List.getD_cons_succ]

lemma getD_tri_shift (t1 t2 : TriangleDefinition)
    (rest : List TriangleDefinition) (n : ℕ) (dtr : TriangleDefinition) :
    (t1 :: t2 :: rest).getD (n + 2) dtr = rest.getD n dtr := by
  rw [show n + 2 = n + 1 + 1 from by omega]
  simp only [List.getD_cons_succ]

lemma emitQuads_getD (parts : List Particle) :
    ∀ (l : List ℕ) (i0 j : ℕ), j < l.length →
      ((emitQuads parts l i0).1.getD (4 * j) default
        = ⟨(parts.getD (l.getD j 0) default).position, ⟨0, 0⟩,
           (parts.getD (l.getD j 0) default).size,
           (parts.getD (l.getD j 0) default).rotation,
           (parts.getD (l.getD j 0) default).color⟩) ∧
      ((emitQuads parts l i0).1.getD (4 * j + 1) default
        = ⟨(parts.getD (l.getD j 0) default).position, ⟨1, 0⟩,
           (parts.getD (l.getD j 0) default).size,
           (parts.getD (l.getD j 0) default).rotation,
           (parts.getD (l.getD j 0) default).color⟩) ∧
      ((emitQuads parts l i0).1.getD (4 * j + 2) default
        = ⟨(parts.getD (l.getD j 0) default).position, ⟨1, 1⟩,
           (parts.getD (l.getD j 0) default).size,
           (parts.getD (l.getD j 0) default).rotation,
           (parts.getD (l.getD j 0) default).color⟩) ∧
      ((emitQuads parts l i0).1.getD (4 * j + 3) default
        = ⟨(parts.getD (l.getD j 0) default).position, ⟨0, 1⟩,
           (parts.getD (l.getD j 0) default).size,
           (parts.getD (l.getD j 0) default).rotation,
           (parts.getD (l.getD j 0) default).color⟩) ∧
      ((emitQuads parts l i0).2.getD (2 * j) default
        = ⟨4 * (i0 + j), 4 * (i0 + j) + 1, 4 * (i0 + j) + 2⟩) ∧
      ((emitQuads parts l i0).2.getD (2 * j + 1) default
        = ⟨4 * (i0 + j), 4 * (i0 + j) + 2, 4 * (i0 + j) + 3⟩) := by
  intro l
  induction l with
  | nil =>
    intro i0 j hj
    exact absurd hj (by simp)
  | cons idx rest ih =>
    intro i0 j hj
    cases j with
    | zero => exact ⟨rfl, rfl, rfl, rfl, rfl, rfl⟩
    | succ j =>
      have hjr : j < rest.length := by simpa using hj
      obtain ⟨ihv0, ihv1, ihv2, ihv3, iht0, iht1⟩ := ih (i0 + 1) j hjr
      have hq : emitQuads parts (idx :: rest) i0
          = (quadVertices (parts.getD idx default)
              ++ (emitQuads parts rest (i0 + 1)).1,
             ⟨4 * i0, 4 * i0 + 1, 4 * i0 + 2⟩ ::
               ⟨4 * i0, 4 * i0 + 2, 4 * i0 + 3⟩ ::
               (emitQuads parts rest (i0 + 1)).2) := rfl
      clear hq
      refine ⟨?_, ?_, ?_, ?_, ?_, ?_⟩
      · rw [show 4 * (j + 1) = 4 * j + 4 from by omega]
        show (quadVertices (parts.getD idx default)
            ++ (emitQuads parts rest (i0 + 1)).1).getD (4 * j + 4) default = _
        simp only [quadVertices, List.cons_append, List.nil_append]
        rw [getD_vert_shift]
        simp only [List.getD_cons_succ]
        exact ihv0
      · rw [show 4 * (j + 1) + 1 = (4 * j + 1) + 4 from by omega]
        show (quadVertices (parts.getD idx default)
            ++ (emitQuads parts rest (i0 + 1)).1).getD ((4 * j + 1) + 4)
            default = _
        simp only [quadVertices, List.cons_append, List.nil_append]
        rw [getD_vert_shift]
        simp only [List.getD_cons_succ]
        exact ihv1
      · rw [show 4 * (j + 1) + 2 = (4 * j + 2) + 4 from by omega]
        show (quadVertices (parts.getD idx default)
            ++ (emitQuads parts rest (i0 + 1)).1).getD ((4 * j + 2) + 4)
            default = _
        simp only [quadVertices, List.cons_append, List.nil_append]
        rw [getD_vert_shift]
        simp only [List.getD_cons_succ]
        exact ihv2
      · rw [show 4 * (j + 1) + 3 = (4 * j + 3) + 4 from by omega]
        show (quadVertices (parts.getD idx default)
            ++ (emitQuads parts rest (i0 + 1)).1).getD ((4 * j + 3) + 4)
            default = _
        simp only [quadVertices, List.cons_append, List.nil_append]
        rw [getD_vert_shift]
        simp only [List.getD_cons_succ]
        exact ihv3
      · rw [show 2 * (j + 1) = 2 * j + 2 from by omega]
        show ((⟨4 * i0, 4 * i0 + 1, 4 * i0 + 2⟩ : TriangleDefinition) ::
            (⟨4 * i0, 4 * i0 + 2, 4 * i0 + 3⟩ : TriangleDefinition) ::
            (emitQuads parts rest (i0 + 1)).2).getD (2 * j + 2) default = _
        rw [getD_tri_shift, show i0 + (j + 1) = (i0 + 1) + j from by omega]
        exact iht0
      · rw [show 2 * (j + 1) + 1 = (2 * j + 1) + 2 from by omega]
        show ((⟨4 * i0, 4 * i0 + 1, 4 * i0 + 2⟩ : TriangleDefinition) ::
            (⟨4 * i0, 4 * i0 + 2, 4 * i0 + 3⟩ : TriangleDefinition) ::
            (emitQuads parts rest (i0 + 1)).2).getD ((2 * j + 1) + 2)
            default = _
        rw [getD_tri_shift, show i0 + (j + 1) = (i0 + 1) + j from by omega]
        exact iht1

lemma tick_time (em : BaseEmitter) (dt : ℚ) :
    (em.tick dt).time = (em.time + dt)
      - (1 / (em.particle_spawn_rate : ℚ))
        * (f32ToU32 ((em.time + dt)
            / (1 / (em.particle_spawn_rate : ℚ))) : ℚ) := by
  unfold BaseEmitter.tick
  cases em.max_particles <;> simp <;> split <;> rfl

lemma tick_halted (em : BaseEmitter) (dt : ℚ) (n : ℕ)
    (h1 : em.resurrect_particles = false)
    (h2 : em.max_particles = ParticleLimit.Strict n)
    (h3 : n < em.spawned_particles) :
    (em.tick dt).particles_to_spawn = 0 ∧
    (em.tick dt).resurrect_particles = false ∧
    (em.tick dt).max_particles = ParticleLimit.Strict n ∧
    n < (em.tick dt).spawned_particles := by
  simp only [BaseEmitter.tick, h2]
  rw [if_pos ⟨h1, h3⟩]
  exact ⟨rfl, h1, rfl, h3⟩

lemma tickSeq_halted (n : ℕ) :
    ∀ (dts : List ℚ) (em : BaseEmitter),
      em.resurrect_particles = false →
      em.max_particles = ParticleLimit.Strict n →
      n < em.spawned_particles →
      dts ≠ [] →
      (tickSeq em dts).particles_to_spawn = 0 := by
  intro dts
  induction dts with
  | nil =>
    intro em _ _ _ hne
    exact absurd rfl hne
  | cons d rest ih =>
    intro em h1 h2 h3 _
    obtain ⟨hp, hr, hm, hs⟩ := tick_halted em d n h1 h2 h3
    unfold tickSeq
    simp only [List.foldl_cons]
    cases rest with
    | nil => exact hp
    | cons d2 r2 =>
      exact ih (em.tick d) hr hm hs (by simp)

unseal Rat.mul Rat.add Rat.sub Rat.inv in
/-- C1: the spec claims a Strict(n) emitter's alive counter never exceeds n
over any sequence of tick/update calls.  The code violates this: with
Strict(4), spawn rate 1/s and updates dt = 3 then dt = 2 (lifetime draws of
1000 s), the reduction branch computes `max_particles - particle_count`
(4 - 2 = 2) instead of the headroom 4 - 3 = 1, so the counter reaches
5 > 4. -/
theorem c1_strict_cap_exceeded :
    c1base.max_particles = ParticleLimit.Strict 4 ∧
    (runUpdates c1steps c1sys).map
        (fun s => (s.emitters.map Emitter.aliveCount).sum) = some 5 ∧
    (runUpdates c1steps c1sys).map
        (fun s => s.particles.countP (fun p => p.alive)) = some 5 :=
  ⟨rfl, by decide, by decide⟩

unseal Rat.mul Rat.add Rat.sub Rat.inv in
/-- C3 counterexample: the claim says spawning halts once the emitter has
spawned at least n particles over its lifetime; with Strict(2), resurrection
off and spawn rate 1/s, after tick(2) exactly 2 particles have been spawned,
yet the next tick still sets particles_to_spawn = 1. -/
theorem c3_counterexample :
    (c3em.tick 2).spawned_particles = 2 ∧
    ((c3em.tick 2).tick 1).particles_to_spawn = 1 := by decide

/-- C3 (amended): with resurrect_particles = false and Strict(n), once the
lifetime spawn total strictly exceeds n, every subsequent tick sets
particles_to_spawn = 0, permanently, regardless of the alive counter (the
halted branch also leaves the spawn total untouched). -/
theorem c3_halt_permanent (em : BaseEmitter) (n : ℕ) (dts : List ℚ)
    (h1 : em.resurrect_particles = false)
    (h2 : em.max_particles = ParticleLimit.Strict n)
    (h3 : n < em.spawned_particles) (h4 : dts ≠ []) :
    (tickSeq em dts).particles_to_spawn = 0 :=
  tickSeq_halted n dts em h1 h2 h3 h4

/-- Witness for C3 at a concrete exhausted one-shot emitter. -/
theorem c3_halt_permanent_witness :
    (c3wEm.resurrect_particles = false ∧
     c3wEm.max_particles = ParticleLimit.Strict 2 ∧
     2 < c3wEm.spawned_particles ∧ ([(5 : ℚ), 7] : List ℚ) ≠ []) ∧
    (tickSeq c3wEm [5, 7]).particles_to_spawn = 0 :=
  ⟨⟨rfl, rfl, by decide, by decide⟩,
   c3_halt_permanent c3wEm 2 [5, 7] rfl rfl (by decide) (by decide)⟩

/-- C5 counterexample: id -4 is below zero yet is routed through the
custom-emitter registry — with a callback registered it yields a Custom
emitter, without one it yields the registry's own error. -/
theorem c5_counterexample :
    Emitter.new c5cb (-4) = Except.ok (Emitter.Custom default (-4)) ∧
    Emitter.new c5none (-4) = Except.error noCallbackMsg := ⟨rfl, rfl⟩

/-- C5 (amended): ids -1, -2 and -3 construct the built-in Unknown, Box and Sphere
variants; every other id — non-negative or any negative id other than those
three — routes through the registry's spawn, failing with "no callback
specified" when no callback is registered. -/
theorem c5_routing (f : CustomEmitterFactory) (id : ℤ)
    (h1 : id ≠ -1) (h2 : id ≠ -2) (h3 : id ≠ -3) :
    Emitter.new f (-1) = Except.ok Emitter.Unknown ∧
    Emitter.new f (-2) = Except.ok (Emitter.Box default) ∧
    Emitter.new f (-3) = Except.ok (Emitter.Sphere default) ∧
    Emitter.new f id = (match f.spawn id with
      | Except.ok c => Except.ok (Emitter.Custom c.1 c.2)
      | Except.error e => Except.error e) ∧
    Emitter.new ⟨none⟩ id = Except.error noCallbackMsg := by
  refine ⟨rfl, rfl, rfl, ?_, ?_⟩
  · unfold Emitter.new
    rw [if_neg h1, if_neg h2, if_neg h3]
  · unfold Emitter.new
    rw [if_neg h1, if_neg h2, if_neg h3]
    rfl

/-- Witness for C5 at id 7. -/
theorem c5_routing_witness :
    ((7 : ℤ) ≠ -1 ∧ (7 : ℤ) ≠ -2 ∧ (7 : ℤ) ≠ -3) ∧
    (Emitter.new c5cb (-1) = Except.ok Emitter.Unknown ∧
     Emitter.new c5cb (-2) = Except.ok (Emitter.Box default) ∧
     Emitter.new c5cb (-3) = Except.ok (Emitter.Sphere default) ∧
     Emitter.new c5cb 7 = (match c5cb.spawn 7 with
       | Except.ok c => Except.ok (Emitter.Custom c.1 c.2)
       | Except.error e => Except.error e) ∧
     Emitter.new ⟨none⟩ 7 = Except.error noCallbackMsg) :=
  ⟨⟨by decide, by decide, by decide⟩,
   c5_routing c5cb 7 (by decide) (by decide) (by decide)⟩

/-- C6: generate_draw_data always emits exactly 4 vertices and 2 triangles
per currently live particle, and the sorted order is monotonically
non-increasing in squared camera distance (back-to-front). -/
theorem c6_draw_counts_and_order (sys : ParticleSystem) (cam : Vec3) :
    (sys.generate_draw_data cam).vertices.length
      = 4 * sys.particles.countP (fun p => p.alive) ∧
    (sys.generate_draw_data cam).triangles.length
      = 2 * sys.particles.countP (fun p => p.alive) ∧
    List.Pairwise (fun a b : ℚ => b ≤ a)
      ((sortedCollected sys cam).map Prod.snd) := by
  have hlen := emitQuads_lengths sys.particles (sortedIndices sys cam) 0
  have hslen : (sortedIndices sys cam).length
      = sys.particles.countP (fun p => p.alive) := by
    unfold sortedIndices
    rw [List.length_map]
    exact sortedCollected_length sys cam
  refine ⟨?_, ?_, ?_⟩
  · show (emitQuads sys.particles (sortedIndices sys cam) 0).1.length = _
    rw [hlen.1, hslen]
  · show (emitQuads sys.particles (sortedIndices sys cam) 0).2.length = _
    rw [hlen.2, hslen]
  · have hs : List.Sorted farther (sortedCollected sys cam) :=
      List.sorted_insertionSort farther (collectAlive sys cam)
    exact List.Pairwise.map Prod.snd (fun a b hab => hab) hs

/-- C7: for every particle system, after any sequence of update calls from a
freshly built system, the sum of the emitters' alive counters equals the
number of live particles in the pool. -/
theorem c7_alive_counter_consistency (sys : ParticleSystem)
    (steps : List (ℚ × (ℕ → SpawnSeed))) (s : ParticleSystem)
    (hf : FreshSystem sys) (hrun : runUpdates steps sys = some s) :
    (s.emitters.map Emitter.aliveCount).sum
      = s.particles.countP (fun p => p.alive) :=
  sysInv_sum s.particles s.emitters s.free_particles
    (runUpdates_inv steps sys s (fresh_inv sys hf) hrun)

unseal Rat.mul Rat.add Rat.sub Rat.inv in
/-- Witness for C7 at a concrete one-emitter system after one update. -/
theorem c7_alive_counter_consistency_witness :
    FreshSystem c7sys ∧
    (((runUpdates c7steps c7sys).getD c7sys).emitters.map
        Emitter.aliveCount).sum
      = ((runUpdates c7steps c7sys).getD c7sys).particles.countP
          (fun p => p.alive) :=
  ⟨by unfold FreshSystem; refine ⟨rfl, rfl, ?_⟩; decide,
   c7_alive_counter_consistency c7sys c7steps
     ((runUpdates c7steps c7sys).getD c7sys)
     (by unfold FreshSystem; refine ⟨rfl, rfl, ?_⟩; decide) (by rfl)⟩

/-- C8: in every reachable state the free list is duplicate-free and its
entries are in-bounds dead slots (so a reused slot never overwrites a live
particle), and an update grows the pool by exactly the spawn total minus the
free slots consumed — free slots are reused before any append. -/
theorem c8_free_list_first (sys : ParticleSystem)
    (steps : List (ℚ × (ℕ → SpawnSeed))) (s : ParticleSystem) (dt : ℚ)
    (seeds : ℕ → SpawnSeed) (s2 : ParticleSystem) (ems1 : List Emitter)
    (hf : FreshSystem sys) (hrun : runUpdates steps sys = some s)
    (ht : tickAll s.emitters dt = some ems1)
    (hu : s.update dt seeds = some s2) :
    (∀ i ∈ s.free_particles, i < s.particles.length ∧
      (s.particles.getD i default).alive = false) ∧
    s.free_particles.Nodup ∧
    s2.particles.length = s.particles.length
      + (totalToSpawn ems1
         - min (totalToSpawn ems1) s.free_particles.length) := by
  have hinv := runUpdates_inv steps sys s (fresh_inv sys hf) hrun
  exact ⟨hinv.2.2, hinv.2.1, (update_spec s dt seeds s2 hu hinv).2 ems1 ht⟩

unseal Rat.mul Rat.add Rat.sub Rat.inv in
/-- Witness for C8: spawn one particle, let it die (freeing its slot), spawn
one more — the free slot is reused and the pool stays at one slot. -/
theorem c8_free_list_first_witness :
    FreshSystem c8sys ∧ c8mid.particles.length = 1 ∧
    c8mid.free_particles.length = 1 ∧
    (c8fin.particles.length = c8mid.particles.length
      + (totalToSpawn c8ems1
         - min (totalToSpawn c8ems1) c8mid.free_particles.length)) ∧
    c8fin.particles.length = 1 :=
  ⟨by unfold FreshSystem; refine ⟨rfl, rfl, ?_⟩; decide, by decide, by decide,
   (c8_free_list_first c8sys c8steps1 c8mid 1 c8seeds2 c8fin c8ems1
     (by unfold FreshSystem; refine ⟨rfl, rfl, ?_⟩; decide)
     (by rfl) (by rfl) (by rfl)).2.2,
   by decide⟩

/-- C10: SphereEmitter::emit places the particle from the sampled radius and
spherical angles around the coordinate origin, irrespective of the emitter's
local position, while BoxEmitter::emit offsets every per-axis sample by the
emitter's local position. -/
theorem c10_sphere_ignores_position :
    (∀ (se : SphereEmitter) (s : SpawnSeed) (p : Particle),
      (se.emit s p).position
        = ⟨s.shapeSampleA * s.shapeSampleC * s.shapeSampleD,
           s.shapeSampleA * s.shapeSampleC * s.shapeSampleE,
           s.shapeSampleA * s.shapeSampleB⟩) ∧
    (∀ (se : SphereEmitter) (v : Vec3) (s : SpawnSeed) (p : Particle),
      (SphereEmitter.emit
          { se with emitter := { se.emitter with position := v } } s
          p).position
        = (se.emit s p).position) ∧
    (∀ (be : BoxEmitter) (s : SpawnSeed) (p : Particle),
      (be.emit s p).position
        = ⟨be.emitter.position.x + s.shapeSampleA,
           be.emitter.position.y + s.shapeSampleB,
           be.emitter.position.z + s.shapeSampleC⟩) :=
  ⟨fun _ _ _ => rfl, fun _ _ _ _ => rfl, fun _ _ _ => rfl⟩

unseal Rat.mul Rat.add Rat.sub Rat.inv in
/-- C2 counterexample: with spawn rate 1/s, Strict(100) and no particles
alive, a 150 s tick computes a raw count of 150; the reduction branch is
taken and `100 - 150` wraps to 4294967246, which the emitter then schedules
for spawning. -/
theorem c2_counterexample :
    c2em.alive_particles < 100 ∧
    100 < f32ToU32 ((c2em.time + 150) / (1 / (c2em.particle_spawn_rate : ℚ))) ∧
    (c2em.tick 150).particles_to_spawn = 4294967246 ∧
    100 < (c2em.tick 150).particles_to_spawn := by decide

/-- C2 (amended): whenever the Strict reduction branch fires with a raw count
strictly above the cap — which happens as soon as `alive_particles < max` and
the guard's u32 sum `alive_particles + particle_count` does not itself wrap —
the unsigned subtraction `max - particle_count` underflows: the wrapped
result is `2^32 - (count - max)`, which itself exceeds the cap. -/
theorem c2_strict_reduction_underflow (em : BaseEmitter) (dt : ℚ) (maxp : ℕ)
    (hmax : em.max_particles = ParticleLimit.Strict maxp)
    (halive : em.alive_particles < maxp)
    (hbig : maxp
      < f32ToU32 ((em.time + dt) / (1 / (em.particle_spawn_rate : ℚ))))
    (hnowrap : em.alive_particles
      + f32ToU32 ((em.time + dt) / (1 / (em.particle_spawn_rate : ℚ)))
      < 4294967296)
    (hres : em.resurrect_particles = true ∨ em.spawned_particles ≤ maxp) :
    (em.tick dt).particles_to_spawn
      = 4294967296
        - (f32ToU32 ((em.time + dt) / (1 / (em.particle_spawn_rate : ℚ)))
           - maxp) ∧
    maxp < (em.tick dt).particles_to_spawn := by
  have hle : f32ToU32 ((em.time + dt) / (1 / (em.particle_spawn_rate : ℚ)))
      ≤ u32Max := min_le_right _ _
  have hres2 : ¬(em.resurrect_particles = false
      ∧ em.spawned_particles > maxp) := by
    rcases hres with h | h
    · rintro ⟨h1, _⟩; rw [h] at h1; exact Bool.noConfusion h1
    · rintro ⟨_, h2⟩; omega
  simp only [BaseEmitter.tick, hmax]
  rw [if_neg hres2, if_pos ⟨halive, by unfold u32Add; omega⟩]
  show u32Sub maxp _ = _ ∧ maxp < u32Sub maxp _
  unfold u32Sub u32Max at *
  constructor <;> omega

unseal Rat.mul Rat.add Rat.sub Rat.inv in
/-- Witness for C2: the underflow theorem applied at spawn rate 1/s,
Strict(100), dt = 150. -/
theorem c2_strict_reduction_underflow_witness :
    (c2em.max_particles = ParticleLimit.Strict 100 ∧
     c2em.alive_particles < 100 ∧
     100 < f32ToU32 ((c2em.time + 150)
       / (1 / (c2em.particle_spawn_rate : ℚ))) ∧
     c2em.alive_particles
       + f32ToU32 ((c2em.time + 150)
           / (1 / (c2em.particle_spawn_rate : ℚ))) < 4294967296 ∧
     c2em.resurrect_particles = true) ∧
    ((c2em.tick 150).particles_to_spawn
      = 4294967296
        - (f32ToU32 ((c2em.time + 150)
            / (1 / (c2em.particle_spawn_rate : ℚ))) - 100) ∧
     100 < (c2em.tick 150).particles_to_spawn) :=
  ⟨⟨rfl, by decide, by decide, by decide, rfl⟩,
   c2_strict_reduction_underflow c2em 150 100 rfl (by decide) (by decide)
     (by decide) (Or.inl rfl)⟩

unseal Rat.mul Rat.add Rat.sub Rat.inv in
/-- C9 counterexample: the claim says the computed count is
`floor(time / (1/r))`; the `as u32` cast saturates instead.  With spawn rate
1/s and dt = 2^33 the floor is 8589934592 but the scheduled count is
u32::MAX = 4294967295, and the carried time is 4294967297 s rather than the
sub-period fraction the floor semantics would leave. -/
theorem c9_counterexample :
    Int.toNat ⌊(c9em.time + 8589934592) * (c9em.particle_spawn_rate : ℚ)⌋
      = 8589934592 ∧
    (c9em.tick 8589934592).particles_to_spawn = 4294967295 ∧
    (c9em.tick 8589934592).particles_to_spawn
      ≠ Int.toNat ⌊(c9em.time + 8589934592)
          * (c9em.particle_spawn_rate : ℚ)⌋ ∧
    (c9em.tick 8589934592).time = 4294967297 := by decide

/-- C9 (amended): with spawn rate r > 0, a non-negative accumulated time and
a count that fits in u32, tick computes exactly
`floor((time + dt) * r)` particles, subtracts the consumed `(1/r) * count`
back out of `time`, and the carried remainder lies in `[0, 1/r)`. -/
theorem c9_time_carry (em : BaseEmitter) (dt : ℚ)
    (hr : 0 < em.particle_spawn_rate)
    (hT : 0 ≤ em.time + dt)
    (hfit : Int.toNat ⌊(em.time + dt) * (em.particle_spawn_rate : ℚ)⌋
      ≤ u32Max) :
    f32ToU32 ((em.time + dt) / (1 / (em.particle_spawn_rate : ℚ)))
      = Int.toNat ⌊(em.time + dt) * (em.particle_spawn_rate : ℚ)⌋ ∧
    (em.tick dt).time
      = (em.time + dt)
        - (1 / (em.particle_spawn_rate : ℚ))
          * (Int.toNat ⌊(em.time + dt)
              * (em.particle_spawn_rate : ℚ)⌋ : ℚ) ∧
    0 ≤ (em.tick dt).time ∧
    (em.tick dt).time < 1 / (em.particle_spawn_rate : ℚ) := by
  have hR : (0 : ℚ) < (em.particle_spawn_rate : ℚ) := by exact_mod_cast hr
  have hdiv : (em.time + dt) / (1 / (em.particle_spawn_rate : ℚ))
      = (em.time + dt) * (em.particle_spawn_rate : ℚ) := by
    field_simp
  have h1 : f32ToU32 ((em.time + dt) / (1 / (em.particle_spawn_rate : ℚ)))
      = Int.toNat ⌊(em.time + dt) * (em.particle_spawn_rate : ℚ)⌋ := by
    rw [f32ToU32, hdiv]
    exact min_eq_left hfit
  have htime := tick_time em dt
  rw [h1] at htime
  have hfl0 : (0 : ℤ) ≤ ⌊(em.time + dt) * (em.particle_spawn_rate : ℚ)⌋ :=
    Int.floor_nonneg.mpr (mul_nonneg hT hR.le)
  have hcast : ((Int.toNat ⌊(em.time + dt)
      * (em.particle_spawn_rate : ℚ)⌋ : ℕ) : ℚ)
      = ((⌊(em.time + dt) * (em.particle_spawn_rate : ℚ)⌋ : ℤ) : ℚ) := by
    exact_mod_cast congrArg (fun z : ℤ => (z : ℚ))
      (Int.toNat_of_nonneg hfl0)
  have hNle : ((Int.toNat ⌊(em.time + dt)
      * (em.particle_spawn_rate : ℚ)⌋ : ℕ) : ℚ)
      ≤ (em.time + dt) * (em.particle_spawn_rate : ℚ) := by
    rw [hcast]
    exact Int.floor_le _
  have hNgt : (em.time + dt) * (em.particle_spawn_rate : ℚ)
      < ((Int.toNat ⌊(em.time + dt)
          * (em.particle_spawn_rate : ℚ)⌋ : ℕ) : ℚ) + 1 := by
    rw [hcast]
    exact Int.lt_floor_add_one _
  refine ⟨h1, htime, ?_, ?_⟩
  · rw [htime]
    have h2 : (1 / (em.particle_spawn_rate : ℚ))
        * ((Int.toNat ⌊(em.time + dt)
            * (em.particle_spawn_rate : ℚ)⌋ : ℕ) : ℚ) ≤ em.time + dt := by
      rw [one_div, inv_mul_eq_div, div_le_iff hR]
      exact hNle
    linarith
  · rw [htime]
    have h3 : em.time + dt
        < 1 / (em.particle_spawn_rate : ℚ)
          + (1 / (em.particle_spawn_rate : ℚ))
            * ((Int.toNat ⌊(em.time + dt)
                * (em.particle_spawn_rate : ℚ)⌋ : ℕ) : ℚ) := by
      have h4 : (1 : ℚ) / (em.particle_spawn_rate : ℚ)
          + (1 / (em.particle_spawn_rate : ℚ))
            * ((Int.toNat ⌊(em.time + dt)
                * (em.particle_spawn_rate : ℚ)⌋ : ℕ) : ℚ)
          = (((Int.toNat ⌊(em.time + dt)
              * (em.particle_spawn_rate : ℚ)⌋ : ℕ) : ℚ) + 1)
            / (em.particle_spawn_rate : ℚ) := by
        field_simp
        ring
      rw [h4, lt_div_iff hR]
      linarith
    linarith

unseal Rat.mul Rat.add Rat.sub Rat.inv in
/-- Witness for C9 at spawn rate 2/s with 1/4 s of carried time and dt = 1:
the count is floor(5/2) = 2 and the new carried time is 1/4 s. -/
theorem c9_time_carry_witness :
    (0 < c9wEm.particle_spawn_rate ∧ (0 : ℚ) ≤ c9wEm.time + 1 ∧
     Int.toNat ⌊(c9wEm.time + 1) * (c9wEm.particle_spawn_rate : ℚ)⌋
       ≤ u32Max) ∧
    (f32ToU32 ((c9wEm.time + 1) / (1 / (c9wEm.particle_spawn_rate : ℚ)))
       = Int.toNat ⌊(c9wEm.time + 1) * (c9wEm.particle_spawn_rate : ℚ)⌋ ∧
     (c9wEm.tick 1).time
       = (c9wEm.time + 1)
         - (1 / (c9wEm.particle_spawn_rate : ℚ))
           * (Int.toNat ⌊(c9wEm.time + 1)
               * (c9wEm.particle_spawn_rate : ℚ)⌋ : ℚ) ∧
     0 ≤ (c9wEm.tick 1).time ∧
     (c9wEm.tick 1).time < 1 / (c9wEm.particle_spawn_rate : ℚ)) :=
  ⟨⟨by decide, by decide, by decide⟩,
   c9_time_carry c9wEm 1 (by decide) (by decide) (by decide)⟩

unseal Rat.mul Rat.add Rat.sub Rat.inv in
/-- C4 counterexample: the claim says each quad's vertices carry the
particle's world position (local plus the node's global position); with the
node at (10,0,0) the emitted vertex carries the bare local position
(1,2,3). -/
theorem c4_counterexample :
    ((c4sys.generate_draw_data ⟨0, 0, 0⟩).vertices.getD 0 default).position
      = c4p.position ∧
    c4p.position ≠ c4p.position.add c4sys.base.global_position := by decide

/-- C4 (amended): the j-th emitted quad consists of 4 vertices sharing the
particle's LOCAL position (the global offset enters only the camera-distance
sort), size, rotation and color, with texture coordinates
(0,0), (1,0), (1,1), (0,1) in order, and 2 triangles (0,1,2) and (0,2,3)
relative to base offset 4j. -/
theorem c4_quad_layout (sys : ParticleSystem) (cam : Vec3) (j : ℕ)
    (hj : j < (sortedIndices sys cam).length) :
    ((sys.generate_draw_data cam).vertices.getD (4 * j) default
      = ⟨(sys.particles.getD ((sortedIndices sys cam).getD j 0)
            default).position, ⟨0, 0⟩,
         (sys.particles.getD ((sortedIndices sys cam).getD j 0)
            default).size,
         (sys.particles.getD ((sortedIndices sys cam).getD j 0)
            default).rotation,
         (sys.particles.getD ((sortedIndices sys cam).getD j 0)
            default).color⟩) ∧
    ((sys.generate_draw_data cam).vertices.getD (4 * j + 1) default
      = ⟨(sys.particles.getD ((sortedIndices sys cam).getD j 0)
            default).position, ⟨1, 0⟩,
         (sys.particles.getD ((sortedIndices sys cam).getD j 0)
            default).size,
         (sys.particles.getD ((sortedIndices sys cam).getD j 0)
            default).rotation,
         (sys.particles.getD ((sortedIndices sys cam).getD j 0)
            default).color⟩) ∧
    ((sys.generate_draw_data cam).vertices.getD (4 * j + 2) default
      = ⟨(sys.particles.getD ((sortedIndices sys cam).getD j 0)
            default).position, ⟨1, 1⟩,
         (sys.particles.getD ((sortedIndices sys cam).getD j 0)
            default).size,
         (sys.particles.getD ((sortedIndices sys cam).getD j 0)
            default).rotation,
         (sys.particles.getD ((sortedIndices sys cam).getD j 0)
            default).color⟩) ∧
    ((sys.generate_draw_data cam).vertices.getD (4 * j + 3) default
      = ⟨(sys.particles.getD ((sortedIndices sys cam).getD j 0)
            default).position, ⟨0, 1⟩,
         (sys.particles.getD ((sortedIndices sys cam).getD j 0)
            default).size,
         (sys.particles.getD ((sortedIndices sys cam).getD j 0)
            default).rotation,
         (sys.particles.getD ((sortedIndices sys cam).getD j 0)
            default).color⟩) ∧
    ((sys.generate_draw_data cam).triangles.getD (2 * j) default
      = ⟨4 * j, 4 * j + 1, 4 * j + 2⟩) ∧
    ((sys.generate_draw_data cam).triangles.getD (2 * j + 1) default
      = ⟨4 * j, 4 * j + 2, 4 * j + 3⟩) := by
  have h := emitQuads_getD sys.particles (sortedIndices sys cam) 0 j hj
  simpa [ParticleSystem.generate_draw_data] using h

unseal Rat.mul Rat.add Rat.sub Rat.inv in
/-- Witness for C4 at the one-particle system, camera at the origin, quad 0. -/
theorem c4_quad_layout_witness :
    0 < (sortedIndices c4sys ⟨0, 0, 0⟩).length ∧
    (((c4sys.generate_draw_data ⟨0, 0, 0⟩).vertices.getD (4 * 0) default
      = ⟨(c4sys.particles.getD ((sortedIndices c4sys ⟨0, 0, 0⟩).getD 0 0)
            default).position, ⟨0, 0⟩,
         (c4sys.particles.getD ((sortedIndices c4sys ⟨0, 0, 0⟩).getD 0 0)
            default).size,
         (c4sys.particles.getD ((sortedIndices c4sys ⟨0, 0, 0⟩).getD 0 0)
            default).rotation,
         (c4sys.particles.getD ((sortedIndices c4sys ⟨0, 0, 0⟩).getD 0 0)
            default).color⟩) ∧
    ((c4sys.generate_draw_data ⟨0, 0, 0⟩).vertices.getD (4 * 0 + 1) default
      = ⟨(c4sys.particles.getD ((sortedIndices c4sys ⟨0, 0, 0⟩).getD 0 0)
            default).position, ⟨1, 0⟩,
         (c4sys.particles.getD ((sortedIndices c4sys ⟨0, 0, 0⟩).getD 0 0)
            default).size,
         (c4sys.particles.getD ((sortedIndices c4sys ⟨0, 0, 0⟩).getD 0 0)
            default).rotation,
         (c4sys.particles.getD ((sortedIndices c4sys ⟨0, 0, 0⟩).getD 0 0)
            default).color⟩) ∧
    ((c4sys.generate_draw_data ⟨0, 0, 0⟩).vertices.getD (4 * 0 + 2) default
      = ⟨(c4sys.particles.getD ((sortedIndices c4sys ⟨0, 0, 0⟩).getD 0 0)
            default).position, ⟨1, 1⟩,
         (c4sys.particles.getD ((sortedIndices c4sys ⟨0, 0, 0⟩).getD 0 0)
            default).size,
         (c4sys.particles.getD ((sortedIndices c4sys ⟨0, 0, 0⟩).getD 0 0)
            default).rotation,
         (c4sys.particles.getD ((sortedIndices c4sys ⟨0, 0, 0⟩).getD 0 0)
            default).color⟩) ∧
    ((c4sys.generate_draw_data ⟨0, 0, 0⟩).vertices.getD (4 * 0 + 3) default
      = ⟨(c4sys.particles.getD ((sortedIndices c4sys ⟨0, 0, 0⟩).getD 0 0)
            default).position, ⟨0, 1⟩,
         (c4sys.particles.getD ((sortedIndices c4sys ⟨0, 0, 0⟩).getD 0 0)
            default).size,
         (c4sys.particles.getD ((sortedIndices c4sys ⟨0, 0, 0⟩).getD 0 0)
            default).rotation,
         (c4sys.particles.getD ((sortedIndices c4sys ⟨0, 0, 0⟩).getD 0 0)
            default).color⟩) ∧
    ((c4sys.generate_draw_data ⟨0, 0, 0⟩).triangles.getD (2 * 0) default
      = ⟨4 * 0, 4 * 0 + 1, 4 * 0 + 2⟩) ∧
    ((c4sys.generate_draw_data ⟨0, 0, 0⟩).triangles.getD (2 * 0 + 1) default
      = ⟨4 * 0, 4 * 0 + 2, 4 * 0 + 3⟩)) :=
  ⟨by decide, c4_quad_layout c4sys ⟨0, 0, 0⟩ 0 (by decide)⟩
